import Mathlib

/-!
# CoolerControl engine — verification of the processor chain and custom sensors

This file gives a shallow embedding, in Lean 4, of the parts of the
coolercontrold daemon that the specification's claims are about:

* `src/coolercontrold/src/engine/processors/functions.rs` — the Function
  pre-processors (Identity, Standard/hysteresis), the duty-threshold
  post-processor and the safety-latch processor;
* `src/coolercontrold/src/engine/processors/profiles.rs` — the graph processor;
* `src/coolercontrold/src/repositories/custom_sensors_repo.rs` — the custom
  (synthetic) sensor mix functions, the file-sensor validation pipeline, and
  the status-history fill/remove operations.

Modelling conventions:

* Rust `f64` temperature values are modelled as `ℚ`.  The algorithms in scope
  only use comparisons, additions/subtractions and divisions on temperatures,
  so rational arithmetic mirrors the control flow exactly on exactly
  representable inputs.
* Rust `u8` duty values are modelled as `Nat`, with an explicit `% 256`
  wherever the source's `u8` arithmetic can wrap (release-profile semantics).
* Rust saturating `as u8` casts of floats are modelled explicitly
  (`rustAsU8`, `rustCeilAsU8`).
* Fallible paths (`unwrap` on possibly-`None` values, i.e. panics) are
  modelled with `Option`: a `none` result marks a source panic.
* Device status history is a `List Status` with the newest snapshot last
  (mirroring `VecDeque::push_back`); a `VecDeque` front is a list head.
-/

attribute [local semireducible] Rat.ofScientific Rat.mul Rat.inv Rat.add Rat.sub

/-- One temperature reading of a status snapshot (`TempStatus` in
`device.rs`): sensor name and temperature in °C. -/
structure TempStatus where
  name : String
  temp : ℚ
deriving DecidableEq, Repr

/-- One status snapshot (`Status` in `device.rs`), reduced to the temperature
readings, which are the only part the processors in scope consume. -/
structure Status where
  temps : List TempStatus
deriving DecidableEq, Repr

/-- The ceiling of a rational, via the executable `Rat.floor`
(`ratCeil q = ⌈q⌉`, proved below; `Int.ceil` itself is irreducible and would
block evaluation of the model on concrete inputs). -/
def ratCeil (q : ℚ) : ℤ :=
  -(-q).floor

/-- Rust `f64 as u8` cast of a non-`NaN` value: truncate toward zero and
saturate into `[0, 255]`. -/
def rustAsU8 (q : ℚ) : Nat :=
  if q ≤ 0 then 0 else min 255 q.floor.toNat

/-- Rust `(x : f64).ceil() as u8`: ceiling, then saturating cast. -/
def rustCeilAsU8 (q : ℚ) : Nat :=
  rustAsU8 ((ratCeil q : ℤ) : ℚ)

/-- Rust `f64::clamp(x, lo, hi)`: `lo` if `x < lo`, `hi` if `x > hi`, else
`x`.  The source requires `lo ≤ hi` (it panics otherwise); every use in this
file is under a `0 < pollRate` hypothesis which makes that hold. -/
def rustClamp (x lo hi : ℚ) : ℚ :=
  if x < lo then lo else if x > hi then hi else x

/-!
## Duty-threshold post-processor
(`FunctionDutyThresholdPostProcessor` in `engine/processors/functions.rs`)
-/

/-- `MAX_DUTY_SAMPLE_SIZE` in `engine/processors/functions.rs`. -/
def MAX_DUTY_SAMPLE_SIZE : Nat := 20

/-- `u8::abs_diff`. -/
def u8AbsDiff (a b : Nat) : Nat :=
  if a < b then b - a else a - b

/-- The threshold comparison of
`FunctionDutyThresholdPostProcessor::duty_within_thresholds` against the
last set duty (the non-empty-FIFO path): suppression below the minimum when
the latch is off, clamping above the maximum, pass-through otherwise.  The
`u8` additions/subtractions of the clamping branch are modelled with
wrapping (`% 256`) semantics. -/
def dutyCheck (lastDuty d : Nat) (latch : Bool) (dutyMin dutyMax : Nat) :
    Option Nat :=
  if u8AbsDiff d lastDuty < dutyMin ∧ latch = false then
    none
  else if u8AbsDiff d lastDuty > dutyMax then
    some (if d < lastDuty then (lastDuty + 256 - dutyMax) % 256
          else (lastDuty + dutyMax) % 256)
  else
    some d

/-- `FunctionDutyThresholdPostProcessor::duty_within_thresholds`.

`fifo` is `last_manual_speeds_set` (head oldest, last newest), `d` the input
duty, `latch` the `safety_latch_triggered` flag.  An empty FIFO (first
application) passes the duty through unconditionally. -/
def dutyWithinThresholds (fifo : List Nat) (d : Nat) (latch : Bool)
    (dutyMin dutyMax : Nat) : Option Nat :=
  match fifo.getLast? with
  | none => some d
  | some lastDuty => dutyCheck lastDuty d latch dutyMin dutyMax

/-- `FunctionDutyThresholdPostProcessor::process`, restricted to its state:
returns the new `last_manual_speeds_set` FIFO and the emitted duty.  On an
emission the duty is pushed at the back and the front dropped once the length
exceeds `MAX_DUTY_SAMPLE_SIZE`. -/
def thresholdProcess (fifo : List Nat) (d : Nat) (latch : Bool)
    (dutyMin dutyMax : Nat) : List Nat × Option Nat :=
  match dutyWithinThresholds fifo d latch dutyMin dutyMax with
  | some dutyToSet =>
    let pushed := fifo ++ [dutyToSet]
    (if pushed.length > MAX_DUTY_SAMPLE_SIZE then pushed.tail else pushed,
     some dutyToSet)
  | none => (fifo, none)

/-!
## Safety-latch processor
(`FunctionSafetyLatchProcessor` in `engine/processors/functions.rs`)
-/

/-- `SafetyLatchMetadata` in `engine/processors/functions.rs`:
`no_duty_set_counter` and `max_no_duty_set_count`, both `u8`. -/
structure SafetyLatchMetadata where
  noDutySetCounter : Nat
  maxNoDutySetCount : Nat
deriving DecidableEq, Repr

/-- `SafetyLatchMetadata::new`: the counter starts at `u8::MAX` so the first
tick is latched; the max count starts at `0` (computed on first run). -/
def safetyLatchMetadataNew : SafetyLatchMetadata :=
  { noDutySetCounter := 255, maxNoDutySetCount := 0 }

/-- `FunctionSafetyLatchProcessor::initial_max_no_duty_set_count`: with a
response delay configured, the raw count `response_delay / poll_rate` is
clamped between `⌈30 / poll_rate⌉` and `⌈60 / poll_rate⌉` and cast `as u8`
(truncation); without one, `⌈30 / poll_rate⌉ as u8`. -/
def initialMaxNoDutySetCount (responseDelay : Option Nat) (pollRate : ℚ) : Nat :=
  match responseDelay with
  | some d =>
    rustAsU8 (rustClamp ((d : ℚ) / pollRate)
      ((ratCeil ((30 : ℚ) / pollRate) : ℤ) : ℚ)
      ((ratCeil ((60 : ℚ) / pollRate) : ℤ) : ℚ))
  | none => rustCeilAsU8 ((30 : ℚ) / pollRate)

/-- The begin-of-chain run of `FunctionSafetyLatchProcessor::process`
(`processing_started` still false): computes `max_no_duty_set_count` on the
first run, and reports whether the latch triggers
(`no_duty_set_counter >= max_no_duty_set_count`). -/
def latchBegin (responseDelay : Option Nat) (pollRate : ℚ)
    (m : SafetyLatchMetadata) : SafetyLatchMetadata × Bool :=
  let maxCount := if m.maxNoDutySetCount = 0 then
      initialMaxNoDutySetCount responseDelay pollRate
    else m.maxNoDutySetCount
  ({ noDutySetCounter := m.noDutySetCounter, maxNoDutySetCount := maxCount },
   decide (m.noDutySetCounter ≥ maxCount))

/-- The end-of-chain run of `FunctionSafetyLatchProcessor::process`: a set
duty resets `no_duty_set_counter` to 0, otherwise the `u8` counter is
incremented (wrapping). -/
def latchEnd (m : SafetyLatchMetadata) (dutySet : Bool) : SafetyLatchMetadata :=
  if dutySet then { m with noDutySetCounter := 0 }
  else { m with noDutySetCounter := (m.noDutySetCounter + 1) % 256 }

/-!
## Identity pre-processor and graph processor
-/

/-- `EMERGENCY_MISSING_TEMP` in `engine/processors/functions.rs`. -/
def EMERGENCY_MISSING_TEMP : ℚ := 100

/-- `FunctionIdentityPreProcessor::process`, reduced to the produced
temperature.  `device` is the temp source device's status history (`none`
when the device is missing).  A missing device or a missing sensor in the
latest status yields the emergency temperature; an empty status history
yields no temperature (`iter().last()` is `None`). -/
def identityTemp (device : Option (List Status)) (tempName : String) : Option ℚ :=
  match device with
  | none => some EMERGENCY_MISSING_TEMP
  | some hist =>
    hist.getLast?.bind fun status =>
      (((status.temps.filter (fun ts => ts.name == tempName)).map
          (fun ts => ts.temp)).getLast?).orElse
        (fun _ => some EMERGENCY_MISSING_TEMP)

/-- Linear interpolation between the breakpoints of a speed profile.
Modelled from the spec: `utils::interpolate_profile` (`engine/utils.rs`) is
not part of the sources under review; §4.F prescribes clamping to the nearest
endpoint outside the profile range, linear interpolation between adjacent
breakpoints, rounding to an integer and clamping into `[0, 100]`. -/
def interpSegments (t : ℚ) : ℚ × Nat → List (ℚ × Nat) → ℚ
  | (_, y1), [] => (y1 : ℚ)
  | (x1, y1), (x2, y2) :: rest =>
    if t ≤ x2 then
      (y1 : ℚ) + ((y2 : ℚ) - (y1 : ℚ)) * (t - x1) / (x2 - x1)
    else interpSegments t (x2, y2) rest

/-- Modelled from the spec: the graph evaluator
(`GraphProcessor::process` delegating to the missing `utils::interpolate_profile`),
§4.F: clamp outside the range, interpolate linearly between breakpoints,
round, clamp into `[0, 100]`. -/
def interpolateProfile (points : List (ℚ × Nat)) (t : ℚ) : Nat :=
  match points with
  | [] => 0
  | (x1, y1) :: rest =>
    if t ≤ x1 then min 100 y1
    else min 100 (interpSegments t (x1, y1) rest + 1/2).floor.toNat

/-!
## A processor-chain model for Identity-function profiles

The chain order is fixed (`engine/mod.rs` and §4.D):
safety latch (begin) → pre-processor → graph → duty threshold →
safety latch (end).  A processor whose `is_applicable` is false passes the
data through unchanged; for an Identity-function profile the Standard and EMA
pre-processors never apply.
-/

/-- The per-tick static data of an Identity-function profile binding. -/
structure IdentityProfile where
  tempName : String
  speedProfile : List (ℚ × Nat)
  responseDelay : Option Nat
  pollRate : ℚ
  dutyMinimum : Nat
  dutyMaximum : Nat

/-- The per-profile processor state the chain threads between ticks for an
Identity-function binding. -/
structure IdentityChainState where
  latch : SafetyLatchMetadata
  fifo : List Nat
deriving DecidableEq, Repr

/-- One full processor-chain tick for an Identity-function binding.
`device` is the temp source device's status history at this tick.  Returns
the next state and the duty emitted from the tail of the chain. -/
def identityChainTick (p : IdentityProfile) (s : IdentityChainState)
    (device : Option (List Status)) : IdentityChainState × Option Nat :=
  let beginRun := latchBegin p.responseDelay p.pollRate s.latch
  let latchMeta := beginRun.1
  let latchTriggered := beginRun.2
  match identityTemp device p.tempName with
  | none =>
    ({ latch := latchEnd latchMeta false, fifo := s.fifo }, none)
  | some t =>
    let d := interpolateProfile p.speedProfile t
    let run := thresholdProcess s.fifo d latchTriggered p.dutyMinimum p.dutyMaximum
    ({ latch := latchEnd latchMeta run.2.isSome, fifo := run.1 }, run.2)

/-- Run the Identity-function chain over a list of per-tick device snapshots,
collecting the emitted duty of every tick. -/
def runIdentityChain (p : IdentityProfile) :
    IdentityChainState → List (Option (List Status)) → List (Option Nat)
  | _, [] => []
  | s, input :: rest =>
    let step := identityChainTick p s input
    step.2 :: runIdentityChain p step.1 rest

/-!
## Standard (hysteresis) pre-processor
(`FunctionStandardPreProcessor` in `engine/processors/functions.rs`)

The `data_is_sane` guard requires `response_delay`, `deviance` and
`only_downward` to be present for a Standard function, so the profile model
carries them as plain fields.
-/

/-- `MIN_TEMP_HIST_STACK_SIZE` in `engine/processors/functions.rs`. -/
def MIN_TEMP_HIST_STACK_SIZE : Nat := 2

/-- The per-tick static data of a Standard-function profile binding. -/
structure StdProfile where
  tempName : String
  speedProfile : List (ℚ × Nat)
  responseDelay : Nat
  deviance : ℚ
  onlyDownward : Bool
  pollRate : ℚ
  dutyMinimum : Nat
  dutyMaximum : Nat

/-- `ChannelSettingMetadata` in `engine/processors/functions.rs`: the FIFO
`temp_hist_stack` (head oldest, last newest), the `ideal_stack_size` and the
`last_applied_temp` (0 is the never-applied sentinel). -/
structure ChannelSettingMetadata where
  tempHistStack : List ℚ
  idealStackSize : Nat
  lastAppliedTemp : ℚ
deriving DecidableEq, Repr

/-- `ChannelSettingMetadata::new`. -/
def channelSettingMetadataNew : ChannelSettingMetadata :=
  { tempHistStack := [], idealStackSize := 0, lastAppliedTemp := 0 }

/-- `FunctionStandardPreProcessor::temp_within_tolerance`. -/
def tempWithinTolerance (tempToVerify lastAppliedTemp deviance : ℚ) : Bool :=
  decide (tempToVerify ≤ lastAppliedTemp + deviance ∧
    tempToVerify ≥ lastAppliedTemp - deviance)

/-- `FunctionStandardPreProcessor::calc_ideal_stack_size`:
`(response_delay / poll_rate).ceil() as u8 + 1`, the `+ 1` happening in `u8`
(wrapping) arithmetic. -/
def calcIdealStackSize (p : StdProfile) : Nat :=
  (rustCeilAsU8 ((p.responseDelay : ℚ) / p.pollRate) + 1) % 256

/-- The matching temperatures of the most recent `count` status snapshots, in
chronological order: `status_history.iter().rev().take(count)`, flat-mapped
over the temp readings filtered by name, then reversed back
(`fill_temp_stack`, first-application branch). -/
def latestTempsOf (hist : List Status) (count : Nat) (tempName : String) : List ℚ :=
  (((hist.reverse.take count).flatMap
      (fun status => (status.temps.filter (fun ts => ts.name == tempName)).map
        (fun ts => ts.temp)))).reverse

/-- The matching temperature of the latest status snapshot, or the emergency
temperature when the sensor is missing from it (`fill_temp_stack`, normal
branch).  `none` marks the source's `.unwrap()` panic on an empty status
history. -/
def currentTempOf (hist : List Status) (tempName : String) : Option ℚ :=
  hist.getLast?.map fun status =>
    ((((status.temps.filter (fun ts => ts.name == tempName)).map
        (fun ts => ts.temp)).getLast?).getD EMERGENCY_MISSING_TEMP)

/-- `FunctionStandardPreProcessor::fill_temp_stack`.  `none` marks a source
panic (possible only when the device is present with an empty status history
after the first application). -/
def fillTempStack (tempName : String) (m : ChannelSettingMetadata)
    (device : Option (List Status)) : Option ChannelSettingMetadata :=
  match device with
  | none =>
    if m.lastAppliedTemp = 0 then
      some { m with tempHistStack := [EMERGENCY_MISSING_TEMP] }
    else
      some { m with tempHistStack := m.tempHistStack ++ [EMERGENCY_MISSING_TEMP] }
  | some hist =>
    if m.lastAppliedTemp = 0 then
      if latestTempsOf hist m.idealStackSize tempName = [] then
        some { m with tempHistStack := [EMERGENCY_MISSING_TEMP] }
      else
        some { m with tempHistStack := latestTempsOf hist m.idealStackSize tempName }
    else
      (currentTempOf hist tempName).map fun currentTemp =>
        { m with tempHistStack := m.tempHistStack ++ [currentTemp] }

/-- The within-tolerance spike normalization of the Standard pre-processor:
when the stack holds more than `MIN_TEMP_HIST_STACK_SIZE` samples and both the
oldest and the newest are within tolerance of `last_applied_temp`, all but
the newest are overwritten with the oldest. -/
def stdNormalizeStack (p : StdProfile) (m : ChannelSettingMetadata)
    (oldestTemp newestTemp : ℚ) : ChannelSettingMetadata :=
  if m.tempHistStack.length > MIN_TEMP_HIST_STACK_SIZE ∧
      tempWithinTolerance oldestTemp m.lastAppliedTemp p.deviance = true ∧
      tempWithinTolerance newestTemp m.lastAppliedTemp p.deviance = true then
    { m with tempHistStack :=
        List.replicate (m.tempHistStack.length - 1) oldestTemp ++ [newestTemp] }
  else m

/-- The main processor logic of `FunctionStandardPreProcessor::process`
(after the stack has been filled and trimmed): the `only_downward` fast path,
the within-tolerance spike normalization, and the oldest-within suppression
that the safety latch overrides.  `none` marks the source's `.unwrap()`
panics on an empty stack (unreachable: the filled stack is never empty). -/
def stdMainLogic (p : StdProfile) (m : ChannelSettingMetadata) (latch : Bool) :
    Option (ChannelSettingMetadata × Option ℚ) :=
  match m.tempHistStack.head?, m.tempHistStack.getLast? with
  | some oldestTemp, some newestTemp =>
    if p.onlyDownward = true ∧ newestTemp > m.lastAppliedTemp then
      some ({ m with tempHistStack := [newestTemp], lastAppliedTemp := newestTemp },
        some newestTemp)
    else
      if tempWithinTolerance oldestTemp m.lastAppliedTemp p.deviance = true ∧
          latch = false then
        some (stdNormalizeStack p m oldestTemp newestTemp, none)
      else
        some ({ stdNormalizeStack p m oldestTemp newestTemp with
          lastAppliedTemp := oldestTemp }, some oldestTemp)
  | _, _ => none

/-- The fill-then-trim stage of `FunctionStandardPreProcessor::process`:
fill the stack and pop the front of an over-full stack.  (A popped stack has
at least `ideal_stack_size` entries afterwards, so the cold-start condition
`len < ideal` of the next stage can only hold when no pop happened — the
staging is behaviourally identical to the source's single sequence.) -/
def stdFillAndTrim (p : StdProfile) (m : ChannelSettingMetadata)
    (device : Option (List Status)) : Option ChannelSettingMetadata :=
  (fillTempStack p.tempName m device).map fun m2 =>
    if m2.tempHistStack.length > m2.idealStackSize then
      { m2 with tempHistStack := m2.tempHistStack.tail }
    else m2

/-- The fill / trim / cold-start / main-logic sequence of
`FunctionStandardPreProcessor::process`, after `ideal_stack_size` has been
resolved. -/
def processStandardFilled (p : StdProfile) (m : ChannelSettingMetadata)
    (device : Option (List Status)) (latch : Bool) :
    Option (ChannelSettingMetadata × Option ℚ) :=
  (stdFillAndTrim p m device).bind fun m2 =>
    if m2.lastAppliedTemp = 0 ∧ m2.tempHistStack.length < m2.idealStackSize then
      match m2.tempHistStack.head? with
      | none => none
      | some tempToApply =>
        some ({ m2 with lastAppliedTemp := tempToApply }, some tempToApply)
    else
      stdMainLogic p m2 latch

/-- `FunctionStandardPreProcessor::process`, reduced to its per-profile state:
sets `ideal_stack_size` on the first run, fills the stack, pops the front of
an over-full stack, takes the cold-start fast path when `last_applied_temp`
is the 0 sentinel and the stack is below ideal size, and otherwise runs the
main logic.  `latch` is the tick's `safety_latch_triggered` flag. -/
def processStandard (p : StdProfile) (m : ChannelSettingMetadata)
    (device : Option (List Status)) (latch : Bool) :
    Option (ChannelSettingMetadata × Option ℚ) :=
  processStandardFilled p
    { m with idealStackSize :=
        if m.idealStackSize = 0 then
          max MIN_TEMP_HIST_STACK_SIZE (calcIdealStackSize p)
        else m.idealStackSize }
    device latch

/-!
## A processor-chain model for Standard-function profiles
-/

/-- The per-profile processor state the chain threads between ticks for a
Standard-function binding. -/
structure StdChainState where
  latch : SafetyLatchMetadata
  std : ChannelSettingMetadata
  fifo : List Nat
deriving DecidableEq, Repr

/-- The chain state right after `init_state` was invoked on every processor
of the chain (a profile was just bound to the channel). -/
def stdChainStateInit : StdChainState :=
  { latch := safetyLatchMetadataNew, std := channelSettingMetadataNew, fifo := [] }

/-- One full processor-chain tick for a Standard-function binding:
safety latch (begin) → Standard pre-processor → graph → duty threshold →
safety latch (end).  `none` marks a source panic inside the pre-processor. -/
def stdChainTick (p : StdProfile) (s : StdChainState)
    (device : Option (List Status)) : Option (StdChainState × Option Nat) :=
  let beginRun := latchBegin (some p.responseDelay) p.pollRate s.latch
  let latchMeta := beginRun.1
  let latchTriggered := beginRun.2
  (processStandard p s.std device latchTriggered).bind fun stepStd =>
    match stepStd.2 with
    | none =>
      some ({ latch := latchEnd latchMeta false, std := stepStd.1, fifo := s.fifo },
        none)
    | some t =>
      let d := interpolateProfile p.speedProfile t
      let run := thresholdProcess s.fifo d latchTriggered p.dutyMinimum p.dutyMaximum
      some ({ latch := latchEnd latchMeta run.2.isSome,
              std := stepStd.1,
              fifo := run.1 }, run.2)

/-!
## Custom sensors (`repositories/custom_sensors_repo.rs`)
-/

/-- A weighted temperature reading (`TempData` in `custom_sensors_repo.rs`). -/
structure TempData where
  temp : ℚ
  weight : ℚ
deriving DecidableEq, Repr

/-- `CustomSensorsRepo::process_mix_min`: fold starting at 254. -/
def processMixMin (tempData : List TempData) : ℚ :=
  tempData.foldl (fun acc data => min data.temp acc) 254

/-- `CustomSensorsRepo::process_mix_max`: fold starting at 0. -/
def processMixMax (tempData : List TempData) : ℚ :=
  tempData.foldl (fun acc data => max data.temp acc) 0

/-- `CustomSensorsRepo::process_mix_delta`: 0 on empty input; otherwise a
running minimum starting at 105 and a running maximum starting at 0, and
`|max - min|` of the two accumulators. -/
def processMixDelta (tempData : List TempData) : ℚ :=
  if tempData = [] then 0
  else
    let mm := tempData.foldl
      (fun (acc : ℚ × ℚ) data =>
        (if data.temp < acc.1 then data.temp else acc.1,
         if data.temp > acc.2 then data.temp else acc.2))
      (105, 0)
    |mm.2 - mm.1|

/-- `CustomSensorsRepo::process_mix_avg`. -/
def processMixAvg (tempData : List TempData) : ℚ :=
  if tempData = [] then 0
  else (tempData.foldl (fun acc data => acc + data.temp) 0) / (tempData.length : ℚ)

/-- `CustomSensorsRepo::process_mix_weighted_avg`: running accumulation of
`(Σ·W + t·w) / (W + w)`. -/
def processMixWeightedAvg (tempData : List TempData) : ℚ :=
  if tempData = [] then 0
  else
    (tempData.foldl
      (fun (acc : TempData) data =>
        let totalWeight := acc.weight + data.weight
        { temp := (acc.temp * acc.weight + data.temp * data.weight) / totalWeight,
          weight := totalWeight })
      { temp := 0, weight := 0 }).temp

/-- The mix-function kinds of a custom sensor
(`CustomSensorMixFunctionType` in `setting.rs`). -/
inductive CustomSensorMixFunctionType where
  | minMix | maxMix | delta | avg | weightedAvg
deriving DecidableEq, Repr

/-- `CustomSensorsRepo::process_temp_data`. -/
def processTempData (mixFunction : CustomSensorMixFunctionType)
    (tempData : List TempData) : ℚ :=
  match mixFunction with
  | .minMix => processMixMin tempData
  | .maxMix => processMixMax tempData
  | .delta => processMixDelta tempData
  | .avg => processMixAvg tempData
  | .weightedAvg => processMixWeightedAvg tempData

/-!
### File sensor validation pipeline
-/

/-- `MAX_CUSTOM_SENSOR_FILE_SIZE_BYTES` in `custom_sensors_repo.rs`. -/
def MAX_CUSTOM_SENSOR_FILE_SIZE_BYTES : Nat := 15

/-- The error cases the file-sensor pipeline distinguishes: the path not
configured, the file missing, oversized content, non-integer content, and an
out-of-range temperature (each a `UserError` in the source). -/
inductive FileTempError where
  | filePathNotPresent
  | fileNotFound
  | fileSizeTooLarge
  | invalidInteger
  | unreasonableTemp
deriving DecidableEq, Repr

deriving instance DecidableEq for Except

/-- A digit string to a number; `none` if empty or any non-ASCII-digit
occurs (the digits-and-value part of Rust's `str::parse::<i32>`). -/
def parseDigits (chars : List Char) : Option Nat :=
  if chars = [] then none
  else
    chars.foldlM
      (fun acc c => if c.isDigit then some (acc * 10 + (c.toNat - 48)) else none)
      0

/-- Rust `str::trim`: strip whitespace from both ends (modelled on the
character list; Rust trims the Unicode whitespace set, of which the ASCII
subset is what sysfs-style integer files contain). -/
def trimChars (s : String) : List Char :=
  ((s.data.dropWhile Char.isWhitespace).reverse.dropWhile
    Char.isWhitespace).reverse

/-- Rust `str::parse::<i32>` on trimmed characters: an optional sign, one or
more digits, value within the `i32` range. -/
def parseI32 (chars : List Char) : Option Int :=
  match chars with
  | '+' :: rest =>
    (parseDigits rest).bind fun n =>
      if n ≤ 2147483647 then some (n : Int) else none
  | '-' :: rest =>
    (parseDigits rest).bind fun n =>
      if n ≤ 2147483648 then some (-(n : Int)) else none
  | other =>
    (parseDigits other).bind fun n =>
      if n ≤ 2147483647 then some (n : Int) else none

/-- `CustomSensorsRepo::verify_file_size`: content over 15 bytes is
rejected. -/
def verifyFileSize (content : String) : Except FileTempError String :=
  if content.utf8ByteSize > MAX_CUSTOM_SENSOR_FILE_SIZE_BYTES then
    Except.error FileTempError.fileSizeTooLarge
  else Except.ok content

/-- `CustomSensorsRepo::verify_i32`: the trimmed content must parse as an
`i32`. -/
def verifyI32 (content : String) : Except FileTempError Int :=
  match parseI32 (trimChars content) with
  | some t => Except.ok t
  | none => Except.error FileTempError.invalidInteger

/-- `CustomSensorsRepo::verify_temp_value`: millidegrees in `[0, 120000]`,
divided by 1000. -/
def verifyTempValue (t : Int) : Except FileTempError ℚ :=
  if 0 ≤ t ∧ t ≤ 120000 then Except.ok ((t : ℚ) / 1000)
  else Except.error FileTempError.unreasonableTemp

/-- `CustomSensorsRepo::get_custom_sensor_file_temp`, over the read file
content (`none` when the file does not exist — `verify_file_exists` maps that
read error to the user error): exists → size → integer parse → range →
divide by 1000, in that order. -/
def getCustomSensorFileTemp (content : Option String) : Except FileTempError ℚ :=
  match content with
  | none => Except.error FileTempError.fileNotFound
  | some c =>
    (verifyFileSize c).bind fun c => (verifyI32 c).bind verifyTempValue

/-!
### Custom sensor add / remove on the status history
-/

/-- `TempSource` in `setting.rs`. -/
structure TempSource where
  deviceUID : String
  tempName : String
deriving DecidableEq, Repr

/-- A weighted source of a Mix custom sensor (`CustomTempSourceData`). -/
structure CustomTempSourceData where
  tempSource : TempSource
  weight : Nat
deriving DecidableEq, Repr

/-- `CustomSensorType` in `setting.rs`. -/
inductive CustomSensorType where
  | mix | file
deriving DecidableEq, Repr

/-- `CustomSensor` in `setting.rs`. -/
structure CustomSensor where
  id : String
  csType : CustomSensorType
  mixFunction : CustomSensorMixFunctionType
  sources : List CustomTempSourceData
  filePath : Option String
deriving DecidableEq, Repr

/-- The flat registry of all other devices the custom-sensor repository
holds: device UID to status history (newest snapshot last). -/
def AllDevices := List (String × List Status)

/-- `CustomSensorsRepo::get_temp_from_status`: the last matching reading. -/
def getTempFromStatus (tempSourceName : String) (status : Status) : Option ℚ :=
  (((status.temps.filter (fun ts => ts.name == tempSourceName)).map
    (fun ts => ts.temp))).getLast?

/-- The source-collection loop of
`CustomSensorsRepo::process_custom_sensor_data_mix_indexed`: a missing
source device is skipped, a missing temperature at `index` is an error. -/
def collectTempDataIndexed (all : AllDevices) (index : Nat) :
    List CustomTempSourceData → Except FileTempError (List TempData)
  | [] => Except.ok []
  | src :: rest =>
    match (List.lookup src.tempSource.deviceUID all) with
    | none => collectTempDataIndexed all index rest
    | some hist =>
      match (hist.get? index).bind (getTempFromStatus src.tempSource.tempName) with
      | none => Except.error FileTempError.fileNotFound
      | some t =>
        (collectTempDataIndexed all index rest).map
          (fun tds => { temp := t, weight := (src.weight : ℚ) } :: tds)

/-- `CustomSensorsRepo::process_custom_sensor_data_mix_indexed`: collect the
weighted readings at history index `index`, fall back to a single
zero-reading when none were found, and mix. -/
def processCustomSensorDataMixIndexed (all : AllDevices) (sensor : CustomSensor)
    (index : Nat) : Except FileTempError TempStatus :=
  (collectTempDataIndexed all index sensor.sources).map fun tempData =>
    let tempData := if tempData = [] then [{ temp := 0, weight := 1 }] else tempData
    { name := sensor.id, temp := processTempData sensor.mixFunction tempData }

/-- The Mix loop of `CustomSensorsRepo::fill_status_history_for_new_sensor`:
push the recomputed reading onto every historical status. -/
def fillStatusHistoryMix (all : AllDevices) (sensor : CustomSensor) :
    Nat → List Status → Except FileTempError (List Status)
  | _, [] => Except.ok []
  | index, status :: rest =>
    (processCustomSensorDataMixIndexed all sensor index).bind fun tempStatus =>
      (fillStatusHistoryMix all sensor (index + 1) rest).map
        (fun filled => { temps := status.temps ++ [tempStatus] } :: filled)

/-- The `enumerate` loop of the File branch of
`fill_status_history_for_new_sensor`: zero-pad every status but the one at
`lastIndex`, which gets the currently read value. -/
def fillStatusHistoryFileGo (sensorId : String) (currentTemp : ℚ)
    (lastIndex : Nat) : Nat → List Status → List Status
  | _, [] => []
  | index, status :: rest =>
    (if index = lastIndex then
      { temps := status.temps ++ [{ name := sensorId, temp := currentTemp }] }
    else
      ({ temps := status.temps ++ [{ name := sensorId, temp := 0 }] } : Status)) ::
    fillStatusHistoryFileGo sensorId currentTemp lastIndex (index + 1) rest

/-- The File branch of `fill_status_history_for_new_sensor`: zero-pad every
status but the last, which gets the currently read value
(`process_custom_sensor_data_file_current`, `unwrap_or(0.)`). -/
def fillStatusHistoryFile (sensor : CustomSensor) (content : Option String)
    (hist : List Status) : List Status :=
  fillStatusHistoryFileGo sensor.id
    (match getCustomSensorFileTemp content with
      | Except.ok t => t
      | Except.error _ => 0)
    (hist.length - 1) 0 hist

/-- `CustomSensorsRepo::fill_status_history_for_new_sensor`.  `content` is
the sensor's file content as read this tick (`none`: missing file); the File
branch first validates it (`get_custom_sensor_file_temp(sensor).await?`) and
propagates a validation error. -/
def fillStatusHistoryForNewSensor (all : AllDevices) (content : Option String)
    (sensor : CustomSensor) (hist : List Status) :
    Except FileTempError (List Status) :=
  match sensor.csType with
  | .mix => fillStatusHistoryMix all sensor 0 hist
  | .file =>
    match sensor.filePath with
    | none => Except.error FileTempError.filePathNotPresent
    | some _ =>
      (getCustomSensorFileTemp content).bind fun _ =>
        Except.ok (fillStatusHistoryFile sensor content hist)

/-- `CustomSensorsRepo::remove_status_history_for_sensor`: drop every reading
named after the sensor from every historical status. -/
def removeStatusHistoryForSensor (sensorId : String) (hist : List Status) :
    List Status :=
  hist.map fun status =>
    { temps := status.temps.filter (fun ts => ts.name != sensorId) }

/-!
## Spec-side comparison definitions

These definitions follow the specification's words (not the source) and are
only used to compare a claim's stated formula against the embedded source
function.
-/

/-- The safety-latch max count as the spec's claim states it:
`clamp(⌈response_delay / poll_rate⌉, ⌈30/poll_rate⌉, ⌈60/poll_rate⌉)` —
note the ceiling on the response-delay quotient. -/
def specInitialMaxNoDutySetCount (responseDelay : Nat) (pollRate : ℚ) : Nat :=
  (max ⌈(30 : ℚ) / pollRate⌉
    (min ⌈(responseDelay : ℚ) / pollRate⌉ ⌈(60 : ℚ) / pollRate⌉)).toNat

/-- The least temperature in a weighted reading list (the claim's `min`;
meaningful for non-empty input). -/
def tempsInf : List TempData → ℚ
  | [] => 0
  | d :: rest => rest.foldl (fun acc x => min acc x.temp) d.temp

/-- The greatest temperature in a weighted reading list (the claim's `max`;
meaningful for non-empty input). -/
def tempsSup : List TempData → ℚ
  | [] => 0
  | d :: rest => rest.foldl (fun acc x => max acc x.temp) d.temp

/-!
## Theorems

General helper lemmas first, then one theorem per claim (with its witness or
counterexample).
-/

theorem ratFloor_eq_floor (q : ℚ) : q.floor = ⌊q⌋ := by
  rw [Rat.floor_def', ← Rat.floor_def]

theorem ratCeil_eq_ceil (q : ℚ) : ratCeil q = ⌈q⌉ := by
  unfold ratCeil
  rw [ratFloor_eq_floor, Int.floor_neg, neg_neg]

theorem getLast?_le_of_all_le {fifo : List Nat} {v bound : Nat}
    (hf : ∀ x ∈ fifo, x ≤ bound) (h : fifo.getLast? = some v) : v ≤ bound := by
  have hv : v ∈ fifo := by
    obtain ⟨hne, rfl⟩ := List.mem_getLast?_eq_getLast h
    exact List.getLast_mem hne
  exact hf v hv

theorem dutyWithinThresholds_nil (d : Nat) (latch : Bool) (dutyMin dutyMax : Nat) :
    dutyWithinThresholds [] d latch dutyMin dutyMax = some d := rfl

/-- With the safety latch triggered, the duty-threshold check never
suppresses a present duty. -/
theorem dutyWithinThresholds_latched (fifo : List Nat) (d : Nat)
    (dutyMin dutyMax : Nat) :
    (dutyWithinThresholds fifo d true dutyMin dutyMax).isSome = true := by
  unfold dutyWithinThresholds
  cases fifo.getLast? with
  | none => rfl
  | some lastDuty => simp only [dutyCheck]; split <;> simp_all <;> split <;> simp

theorem dutyCheck_suppress {d lastDuty dutyMin dutyMax : Nat} {latch : Bool}
    (h : u8AbsDiff d lastDuty < dutyMin ∧ latch = false) :
    dutyCheck lastDuty d latch dutyMin dutyMax = none := by
  simp only [dutyCheck, if_pos h]

theorem dutyCheck_clamp {d lastDuty dutyMin dutyMax : Nat} {latch : Bool}
    (h1 : ¬(u8AbsDiff d lastDuty < dutyMin ∧ latch = false))
    (h2 : u8AbsDiff d lastDuty > dutyMax) :
    dutyCheck lastDuty d latch dutyMin dutyMax =
      some (if d < lastDuty then (lastDuty + 256 - dutyMax) % 256
            else (lastDuty + dutyMax) % 256) := by
  simp only [dutyCheck, if_neg h1, if_pos h2]

theorem dutyCheck_pass {d lastDuty dutyMin dutyMax : Nat} {latch : Bool}
    (h1 : ¬(u8AbsDiff d lastDuty < dutyMin ∧ latch = false))
    (h2 : ¬(u8AbsDiff d lastDuty > dutyMax)) :
    dutyCheck lastDuty d latch dutyMin dutyMax = some d := by
  simp only [dutyCheck, if_neg h1, if_neg h2]

/-- In the clamp-up case (`d` above the last duty by more than the maximum),
the `u8` addition cannot wrap: `lastDuty + dutyMax < d ≤ 255`. -/
theorem dutyCheck_add_no_wrap {d lastDuty dutyMax : Nat}
    (hd : d ≤ 255) (hgt : ¬(d < lastDuty))
    (h2 : u8AbsDiff d lastDuty > dutyMax) :
    (lastDuty + dutyMax) % 256 = lastDuty + dutyMax ∧ lastDuty + dutyMax < d := by
  have hdiff : d - lastDuty > dutyMax := by
    simpa [u8AbsDiff, if_neg hgt] using h2
  have hlt : lastDuty + dutyMax < d := by omega
  exact ⟨Nat.mod_eq_of_lt (by omega), hlt⟩

/-- In the clamp-down case (`d` below the last duty by more than the
maximum), the `u8` subtraction cannot underflow: `dutyMax < lastDuty`, and
the wrapping form reduces to plain subtraction. -/
theorem dutyCheck_sub_no_wrap {d lastDuty dutyMax : Nat}
    (hlast : lastDuty ≤ 255) (hlt : d < lastDuty)
    (h2 : u8AbsDiff d lastDuty > dutyMax) :
    (lastDuty + 256 - dutyMax) % 256 = lastDuty - dutyMax ∧ dutyMax < lastDuty := by
  have hdiff : lastDuty - d > dutyMax := by
    simpa [u8AbsDiff, if_pos hlt] using h2
  have hmaxlt : dutyMax < lastDuty := by omega
  constructor
  · have : lastDuty + 256 - dutyMax = (lastDuty - dutyMax) + 256 := by omega
    rw [this, Nat.add_mod_right, Nat.mod_eq_of_lt (by omega)]
  · exact hmaxlt

/-- **C2.** One run of the duty-threshold post-processor with input duty `d`:
on an empty FIFO `d` is applied unconditionally; otherwise, with `last` the
FIFO tail and `Δ = |d − last|` (`u8AbsDiff`): `Δ < duty_minimum` without the
safety latch suppresses (no duty, FIFO unchanged); `Δ > duty_maximum` emits
`last + duty_maximum` when `d > last` and `last − duty_maximum` when
`d < last`; otherwise `d` itself is emitted.  Every emitted duty is pushed
onto the FIFO, dropping the oldest entry when the length exceeds 20. -/
theorem claimC2_duty_threshold_run (fifo : List Nat) (d : Nat) (latch : Bool)
    (dutyMin dutyMax : Nat) (hd : d ≤ 255) (hf : ∀ x ∈ fifo, x ≤ 255) :
    (fifo = [] → thresholdProcess fifo d latch dutyMin dutyMax = ([d], some d))
    ∧ (∀ lastDuty, fifo.getLast? = some lastDuty →
        ((u8AbsDiff d lastDuty < dutyMin ∧ latch = false →
          thresholdProcess fifo d latch dutyMin dutyMax = (fifo, none))
        ∧ (¬(u8AbsDiff d lastDuty < dutyMin ∧ latch = false) →
            u8AbsDiff d lastDuty > dutyMax →
            ((lastDuty < d →
              (thresholdProcess fifo d latch dutyMin dutyMax).2 =
                some (lastDuty + dutyMax))
            ∧ (d < lastDuty →
              (thresholdProcess fifo d latch dutyMin dutyMax).2 =
                some (lastDuty - dutyMax))))
        ∧ (¬(u8AbsDiff d lastDuty < dutyMin ∧ latch = false) →
            ¬(u8AbsDiff d lastDuty > dutyMax) →
            (thresholdProcess fifo d latch dutyMin dutyMax).2 = some d)))
    ∧ (∀ e, (thresholdProcess fifo d latch dutyMin dutyMax).2 = some e →
        (thresholdProcess fifo d latch dutyMin dutyMax).1 =
          if (fifo ++ [e]).length > MAX_DUTY_SAMPLE_SIZE then (fifo ++ [e]).tail
          else fifo ++ [e]) := by
  refine ⟨?_, ?_, ?_⟩
  · rintro rfl
    simp [thresholdProcess, dutyWithinThresholds, MAX_DUTY_SAMPLE_SIZE]
  · intro lastDuty hL
    have hlast : lastDuty ≤ 255 := getLast?_le_of_all_le hf hL
    have hW : dutyWithinThresholds fifo d latch dutyMin dutyMax =
        dutyCheck lastDuty d latch dutyMin dutyMax := by
      simp only [dutyWithinThresholds, hL]
    refine ⟨?_, ?_, ?_⟩
    · intro hcon
      simp [thresholdProcess, hW, dutyCheck_suppress hcon]
    · intro h1 h2
      constructor
      · intro hup
        have hnot : ¬(d < lastDuty) := by omega
        obtain ⟨hmod, _⟩ := dutyCheck_add_no_wrap hd hnot h2
        simp [thresholdProcess, hW, dutyCheck_clamp h1 h2, if_neg hnot, hmod]
      · intro hdown
        obtain ⟨hmod, _⟩ := dutyCheck_sub_no_wrap hlast hdown h2
        simp [thresholdProcess, hW, dutyCheck_clamp h1 h2, if_pos hdown, hmod]
    · intro h1 h2
      simp [thresholdProcess, hW, dutyCheck_pass h1 h2]
  · intro e hsome
    unfold thresholdProcess at hsome ⊢
    cases hV : dutyWithinThresholds fifo d latch dutyMin dutyMax with
    | none => rw [hV] at hsome; simp at hsome
    | some v =>
      rw [hV] at hsome
      have he : v = e := by simpa using hsome
      subst he
      rfl

/-- Witness for C2 at a concrete input: FIFO `[50]`, duty `80`,
thresholds `2`/`20`, latch off. -/
theorem claimC2_duty_threshold_run_witness :
    ([50] = ([] : List Nat) →
      thresholdProcess [50] 80 false 2 20 = ([80], some 80))
    ∧ (∀ lastDuty, ([50] : List Nat).getLast? = some lastDuty →
        ((u8AbsDiff 80 lastDuty < 2 ∧ false = false →
          thresholdProcess [50] 80 false 2 20 = ([50], none))
        ∧ (¬(u8AbsDiff 80 lastDuty < 2 ∧ false = false) →
            u8AbsDiff 80 lastDuty > 20 →
            ((lastDuty < 80 →
              (thresholdProcess [50] 80 false 2 20).2 = some (lastDuty + 20))
            ∧ (80 < lastDuty →
              (thresholdProcess [50] 80 false 2 20).2 = some (lastDuty - 20))))
        ∧ (¬(u8AbsDiff 80 lastDuty < 2 ∧ false = false) →
            ¬(u8AbsDiff 80 lastDuty > 20) →
            (thresholdProcess [50] 80 false 2 20).2 = some 80)))
    ∧ (∀ e, (thresholdProcess [50] 80 false 2 20).2 = some e →
        (thresholdProcess [50] 80 false 2 20).1 =
          if (([50] : List Nat) ++ [e]).length > MAX_DUTY_SAMPLE_SIZE
          then (([50] : List Nat) ++ [e]).tail else [50] ++ [e]) :=
  claimC2_duty_threshold_run [50] 80 false 2 20 (by decide)
    (by intro x hx; simp at hx; omega)

/-- **C10.** With the input duty and every FIFO entry in `[0, 100]`, the `u8`
clamp arithmetic of the duty-threshold check is safe: the subtraction branch
runs only when `|d − last| > duty_maximum` with `d < last` — so
`duty_maximum < last` and it cannot underflow — the addition branch's result
`last + duty_maximum` stays below the input duty's bound, and every duty the
check emits lies in `[0, 100]` again. -/
theorem claimC10_duty_threshold_range_safe (fifo : List Nat) (d : Nat)
    (latch : Bool) (dutyMin dutyMax : Nat) (hd : d ≤ 100)
    (hf : ∀ x ∈ fifo, x ≤ 100) :
    (∀ e, dutyWithinThresholds fifo d latch dutyMin dutyMax = some e → e ≤ 100)
    ∧ (∀ lastDuty, fifo.getLast? = some lastDuty →
        u8AbsDiff d lastDuty > dutyMax →
        ((d < lastDuty → dutyMax < lastDuty ∧
            (lastDuty + 256 - dutyMax) % 256 = lastDuty - dutyMax)
        ∧ (¬(d < lastDuty) → lastDuty + dutyMax < d))) := by
  constructor
  · intro e he
    cases hL : fifo.getLast? with
    | none =>
      have hW : dutyWithinThresholds fifo d latch dutyMin dutyMax = some d := by
        unfold dutyWithinThresholds; rw [hL]
      rw [hW] at he
      simp only [Option.some.injEq] at he
      omega
    | some lastDuty =>
      have hW : dutyWithinThresholds fifo d latch dutyMin dutyMax =
          dutyCheck lastDuty d latch dutyMin dutyMax := by
        unfold dutyWithinThresholds; rw [hL]
      rw [hW] at he
      have hlast : lastDuty ≤ 100 := getLast?_le_of_all_le hf hL
      unfold dutyCheck at he
      by_cases h1 : u8AbsDiff d lastDuty < dutyMin ∧ latch = false
      · rw [if_pos h1] at he; simp at he
      · rw [if_neg h1] at he
        by_cases h2 : u8AbsDiff d lastDuty > dutyMax
        · rw [if_pos h2] at he
          simp only [Option.some.injEq] at he
          by_cases h3 : d < lastDuty
          · obtain ⟨hmod, _⟩ :=
              dutyCheck_sub_no_wrap (Nat.le_trans hlast (by omega)) h3 h2
            rw [if_pos h3, hmod] at he
            omega
          · obtain ⟨hmod, hlt⟩ :=
              dutyCheck_add_no_wrap (Nat.le_trans hd (by omega)) h3 h2
            rw [if_neg h3, hmod] at he
            omega
        · rw [if_neg h2] at he
          simp only [Option.some.injEq] at he
          omega
  · intro lastDuty hL h2
    have hlast : lastDuty ≤ 100 := getLast?_le_of_all_le hf hL
    constructor
    · intro h3
      obtain ⟨hmod, hmax⟩ :=
        dutyCheck_sub_no_wrap (Nat.le_trans hlast (by omega)) h3 h2
      exact ⟨hmax, hmod⟩
    · intro h3
      obtain ⟨_, hlt⟩ := dutyCheck_add_no_wrap (Nat.le_trans hd (by omega)) h3 h2
      exact hlt

/-- Witness for C10 at a concrete input: FIFO `[90]`, duty `10`,
maximum change `20`. -/
theorem claimC10_duty_threshold_range_safe_witness :
    ((∀ e, dutyWithinThresholds [90] 10 false 2 20 = some e → e ≤ 100)
    ∧ (∀ lastDuty, ([90] : List Nat).getLast? = some lastDuty →
        u8AbsDiff 10 lastDuty > 20 →
        ((10 < lastDuty → 20 < lastDuty ∧
            (lastDuty + 256 - 20) % 256 = lastDuty - 20)
        ∧ (¬(10 < lastDuty) → lastDuty + 20 < 10)))) :=
  claimC10_duty_threshold_range_safe [90] 10 false 2 20 (by decide)
    (by intro x hx; simp at hx; omega)

theorem rustAsU8_intCast {n : Int} (h0 : 0 < n) (h255 : n ≤ 255) :
    rustAsU8 (n : ℚ) = n.toNat := by
  unfold rustAsU8
  rw [if_neg (by exact_mod_cast Int.not_le.mpr h0)]
  rw [ratFloor_eq_floor, Int.floor_intCast]
  omega

theorem ceil30_le_ceil60 {pollRate : ℚ} (hpr : 0 < pollRate) :
    ⌈(30 : ℚ) / pollRate⌉ ≤ ⌈(60 : ℚ) / pollRate⌉ := by
  apply Int.ceil_le_ceil
  exact div_le_div_of_nonneg_right (by norm_num) hpr.le


/-- **C5 counterexample.** The claim's formula ceils the response-delay
quotient, but the source truncates it (`as u8`): at response delay 45 s and
poll rate 2 s the source computes `trunc(clamp(22.5, 15, 30)) = 22`, while
the claim's formula gives `clamp(⌈22.5⌉, 15, 30) = 23`. -/
theorem claimC5_counterexample :
    initialMaxNoDutySetCount (some 45) 2 = 22 ∧
    specInitialMaxNoDutySetCount 45 2 = 23 ∧
    initialMaxNoDutySetCount (some 45) 2 ≠ specInitialMaxNoDutySetCount 45 2 := by
  have c30 : ⌈(30 : ℚ) / 2⌉ = 15 := by
    rw [Int.ceil_eq_iff] <;> norm_num
  have c45 : ⌈(45 : ℚ) / 2⌉ = 23 := by
    rw [Int.ceil_eq_iff] <;> norm_num
  have c60 : ⌈(60 : ℚ) / 2⌉ = 30 := by
    rw [Int.ceil_eq_iff] <;> norm_num
  have f45 : ⌊(45 : ℚ) / 2⌋ = 22 := by
    rw [Int.floor_eq_iff] <;> norm_num
  have hcode : initialMaxNoDutySetCount (some 45) 2 = 22 := by
    show rustAsU8 (rustClamp ((45 : ℚ) / 2) ((⌈(30 : ℚ) / 2⌉ : ℤ) : ℚ)
      ((⌈(60 : ℚ) / 2⌉ : ℤ) : ℚ)) = 22
    rw [c30, c60]
    unfold rustClamp
    rw [if_neg (by norm_num), if_neg (by norm_num)]
    unfold rustAsU8
    rw [if_neg (by norm_num), ratFloor_eq_floor, f45]
    rfl
  have hspec : specInitialMaxNoDutySetCount 45 2 = 23 := by
    unfold specInitialMaxNoDutySetCount
    rw [show (((45 : ℕ) : ℚ)) = (45 : ℚ) by norm_num, c30, c45, c60]
    rfl
  exact ⟨hcode, hspec, by rw [hcode, hspec]; omega⟩

/-- **C5 (amended).** For poll rate > 0 whose 60-second window count fits in
a `u8`: the safety latch's max count computed on the first run equals
`clamp(⌊response_delay / poll_rate⌋, ⌈30/poll_rate⌉, ⌈60/poll_rate⌉)` — the
quotient is truncated, not ceiled, which the counterexample forces — when
the function carries a response delay, and `⌈30/poll_rate⌉` when it does
not. -/
theorem claimC5_initial_max_count_amended (d : Nat) (pollRate : ℚ)
    (hpr : 0 < pollRate) (hfit : ⌈(60 : ℚ) / pollRate⌉ ≤ 255) :
    initialMaxNoDutySetCount (some d) pollRate =
      (max ⌈(30 : ℚ) / pollRate⌉
        (min ⌊(d : ℚ) / pollRate⌋ ⌈(60 : ℚ) / pollRate⌉)).toNat
    ∧ initialMaxNoDutySetCount none pollRate = (⌈(30 : ℚ) / pollRate⌉).toNat := by
  have hm1 : 0 < ⌈(30 : ℚ) / pollRate⌉ :=
    Int.ceil_pos.mpr (div_pos (by norm_num) hpr)
  have hmM : ⌈(30 : ℚ) / pollRate⌉ ≤ ⌈(60 : ℚ) / pollRate⌉ := ceil30_le_ceil60 hpr
  constructor
  · show rustAsU8 (rustClamp ((d : ℚ) / pollRate)
      ((⌈(30 : ℚ) / pollRate⌉ : ℤ) : ℚ) ((⌈(60 : ℚ) / pollRate⌉ : ℤ) : ℚ)) = _
    unfold rustClamp
    by_cases hlt : (d : ℚ) / pollRate < ((⌈(30 : ℚ) / pollRate⌉ : ℤ) : ℚ)
    · rw [if_pos hlt, rustAsU8_intCast hm1 (le_trans hmM hfit)]
      have h1 : ⌊(d : ℚ) / pollRate⌋ < ⌈(30 : ℚ) / pollRate⌉ := Int.floor_lt.mpr hlt
      rw [min_eq_left (le_trans h1.le hmM), max_eq_left h1.le]
    · rw [if_neg hlt]
      by_cases hgt : (d : ℚ) / pollRate > ((⌈(60 : ℚ) / pollRate⌉ : ℤ) : ℚ)
      · rw [if_pos hgt, rustAsU8_intCast (lt_of_lt_of_le hm1 hmM) hfit]
        have h2 : ⌈(60 : ℚ) / pollRate⌉ ≤ ⌊(d : ℚ) / pollRate⌋ :=
          Int.le_floor.mpr hgt.le
        rw [min_eq_right h2, max_eq_right hmM]
      · rw [if_neg hgt]
        have hxm : ((⌈(30 : ℚ) / pollRate⌉ : ℤ) : ℚ) ≤ (d : ℚ) / pollRate :=
          not_lt.mp hlt
        have hfm : ⌈(30 : ℚ) / pollRate⌉ ≤ ⌊(d : ℚ) / pollRate⌋ :=
          Int.le_floor.mpr hxm
        have hfM : ⌊(d : ℚ) / pollRate⌋ ≤ ⌈(60 : ℚ) / pollRate⌉ := by
          have hxM : (d : ℚ) / pollRate ≤ ((⌈(60 : ℚ) / pollRate⌉ : ℤ) : ℚ) :=
            not_lt.mp hgt
          calc ⌊(d : ℚ) / pollRate⌋
              ≤ ⌊((⌈(60 : ℚ) / pollRate⌉ : ℤ) : ℚ)⌋ := Int.floor_le_floor hxM
            _ = ⌈(60 : ℚ) / pollRate⌉ := Int.floor_intCast _
        unfold rustAsU8
        rw [if_neg (by
          intro hle
          have h0 : ((⌈(30 : ℚ) / pollRate⌉ : ℤ) : ℚ) ≤ 0 := le_trans hxm hle
          have h0i : ⌈(30 : ℚ) / pollRate⌉ ≤ 0 := by exact_mod_cast h0
          omega)]
        rw [min_eq_left hfM, max_eq_right hfm, ratFloor_eq_floor]
        omega
  · show rustCeilAsU8 ((30 : ℚ) / pollRate) = _
    unfold rustCeilAsU8
    exact rustAsU8_intCast hm1 (le_trans hmM hfit)

/-- Witness for the amended C5 at response delay 45 s and poll rate 2 s:
both branches of the amended formula evaluate as claimed. -/
theorem claimC5_initial_max_count_amended_witness :
    initialMaxNoDutySetCount (some 45) 2 =
      (max ⌈(30 : ℚ) / 2⌉ (min ⌊(45 : ℚ) / 2⌋ ⌈(60 : ℚ) / 2⌉)).toNat
    ∧ initialMaxNoDutySetCount none 2 = (⌈(30 : ℚ) / 2⌉).toNat :=
  claimC5_initial_max_count_amended 45 2 (by norm_num)
    (by rw [show ⌈(60 : ℚ) / 2⌉ = 30 by rw [Int.ceil_eq_iff] <;> norm_num]; omega)

theorem rustCeilAsU8_toNat {q : ℚ} (h255 : ⌈q⌉ ≤ 255) :
    rustCeilAsU8 q = (⌈q⌉).toNat := by
  rcases le_or_lt ⌈q⌉ 0 with h0 | h0
  · unfold rustCeilAsU8 rustAsU8
    rw [if_pos (by exact_mod_cast h0)]
    omega
  · exact rustAsU8_intCast h0 h255


theorem fillTempStack_fields {tempName : String} {m m' : ChannelSettingMetadata}
    {device : Option (List Status)}
    (h : fillTempStack tempName m device = some m') :
    m'.idealStackSize = m.idealStackSize ∧
    m'.lastAppliedTemp = m.lastAppliedTemp := by
  unfold fillTempStack at h
  split at h
  · split at h <;> (simp only [Option.some.injEq] at h; subst h; exact ⟨rfl, rfl⟩)
  · split at h
    · split at h <;> (simp only [Option.some.injEq] at h; subst h; exact ⟨rfl, rfl⟩)
    · rw [Option.map_eq_some'] at h
      obtain ⟨t, _, h⟩ := h
      subst h
      exact ⟨rfl, rfl⟩

theorem stdNormalizeStack_fields (p : StdProfile) (m : ChannelSettingMetadata)
    (oldestTemp newestTemp : ℚ) :
    (stdNormalizeStack p m oldestTemp newestTemp).idealStackSize =
      m.idealStackSize ∧
    (stdNormalizeStack p m oldestTemp newestTemp).lastAppliedTemp =
      m.lastAppliedTemp := by
  unfold stdNormalizeStack
  split
  · exact ⟨rfl, rfl⟩
  · exact ⟨rfl, rfl⟩

theorem stdMainLogic_idealSize {p : StdProfile} {m : ChannelSettingMetadata}
    {latch : Bool} {res : ChannelSettingMetadata × Option ℚ}
    (h : stdMainLogic p m latch = some res) :
    res.1.idealStackSize = m.idealStackSize := by
  unfold stdMainLogic at h
  split at h
  · rename_i oldestTemp newestTemp _ _
    split at h
    · simp only [Option.some.injEq] at h
      subst h
      rfl
    · split at h
      · simp only [Option.some.injEq] at h
        subst h
        exact (stdNormalizeStack_fields p m oldestTemp newestTemp).1
      · simp only [Option.some.injEq] at h
        subst h
        exact (stdNormalizeStack_fields p m oldestTemp newestTemp).1
  · simp at h

theorem stdFillAndTrim_fields {p : StdProfile} {m m2 : ChannelSettingMetadata}
    {device : Option (List Status)}
    (h : stdFillAndTrim p m device = some m2) :
    m2.idealStackSize = m.idealStackSize ∧
    m2.lastAppliedTemp = m.lastAppliedTemp := by
  unfold stdFillAndTrim at h
  cases hf : fillTempStack p.tempName m device with
  | none => rw [hf] at h; simp at h
  | some mf =>
    rw [hf] at h
    simp only [Option.map_some', Option.some.injEq] at h
    subst h
    have hfields := fillTempStack_fields hf
    split
    · exact ⟨hfields.1, hfields.2⟩
    · exact ⟨hfields.1, hfields.2⟩

theorem processStandardFilled_idealSize {p : StdProfile}
    {m : ChannelSettingMetadata} {device : Option (List Status)} {latch : Bool}
    {res : ChannelSettingMetadata × Option ℚ}
    (h : processStandardFilled p m device latch = some res) :
    res.1.idealStackSize = m.idealStackSize := by
  unfold processStandardFilled at h
  cases hf : stdFillAndTrim p m device with
  | none => rw [hf] at h; simp at h
  | some m2 =>
    rw [hf] at h
    simp only [Option.some_bind] at h
    have hfields := stdFillAndTrim_fields hf
    by_cases hcold : m2.lastAppliedTemp = 0 ∧
        m2.tempHistStack.length < m2.idealStackSize
    · rw [if_pos hcold] at h
      split at h
      · simp at h
      · simp only [Option.some.injEq] at h
        subst h
        exact hfields.1
    · rw [if_neg hcold] at h
      rw [stdMainLogic_idealSize h]
      exact hfields.1

theorem rustCeilAsU8_saturate {q : ℚ} (h : 255 ≤ ⌈q⌉) :
    rustCeilAsU8 q = 255 := by
  unfold rustCeilAsU8 rustAsU8
  rw [ratCeil_eq_ceil]
  rw [if_neg (by
    intro hle
    have h0 : ⌈q⌉ ≤ 0 := by exact_mod_cast hle
    omega)]
  rw [ratFloor_eq_floor, Int.floor_intCast]
  omega

/-- Counterexample to C6: at response delay 255 s and poll rate 1 s the
claimed formula gives `max(2, ⌈255/1⌉ + 1) = 256`, but the source computes
`calc_ideal_stack_size` as `(ceil as u8) + 1`: the saturating `as u8` cast
caps the ceiling at 255 and the `u8` increment wraps `255 + 1` to 0, so the
first run fixes the ideal stack size to `max(2, 0) = 2`, not 256. -/
theorem claimC6_counterexample :
    processStandard
      { tempName := "t", speedProfile := [((30 : ℚ), 20), ((60 : ℚ), 80)],
        responseDelay := 255, deviance := 1, onlyDownward := false,
        pollRate := 1, dutyMinimum := 2, dutyMaximum := 20 }
      channelSettingMetadataNew
      (some [{ temps := [{ name := "t", temp := 30 }] }]) true =
      some ({ tempHistStack := [(30 : ℚ)], idealStackSize := 2,
              lastAppliedTemp := 30 }, some (30 : ℚ))
    ∧ max 2 ((⌈((255 : Nat) : ℚ) / (1 : ℚ)⌉).toNat + 1) = 256
    ∧ (2 : Nat) ≠ 256 := by
  refine ⟨by decide, ?_, by omega⟩
  rw [show ⌈((255 : Nat) : ℚ) / (1 : ℚ)⌉ = 255 by norm_num]
  rfl

/-- **C6 (amended).** For a Standard function with response delay `d` and
poll rate `poll_rate > 0`, the hysteresis buffer's ideal stack size is fixed
on the first processor run to `max(2, ⌈d / poll_rate⌉ + 1)` **provided**
`⌈d / poll_rate⌉ + 1 ≤ 255`; once `⌈d / poll_rate⌉` reaches 255 the
saturating `as u8` cast and the wrapping `u8` increment collapse the
computed size to 0 and the first run fixes it to 2 instead (the
counterexample exhibits 2 against the claimed 256).  Later runs keep
whatever value the first run fixed. -/
theorem claimC6_ideal_stack_size_amended (p : StdProfile)
    (m : ChannelSettingMetadata) (device : Option (List Status)) (latch : Bool)
    (res : ChannelSettingMetadata × Option ℚ)
    (hpr : 0 < p.pollRate)
    (h : processStandard p m device latch = some res) :
    (m.idealStackSize = 0 →
      ⌈(p.responseDelay : ℚ) / p.pollRate⌉ + 1 ≤ 255 →
      res.1.idealStackSize =
        max 2 ((⌈(p.responseDelay : ℚ) / p.pollRate⌉).toNat + 1))
    ∧ (m.idealStackSize = 0 →
      255 ≤ ⌈(p.responseDelay : ℚ) / p.pollRate⌉ →
      res.1.idealStackSize = 2)
    ∧ (m.idealStackSize ≠ 0 → res.1.idealStackSize = m.idealStackSize) := by
  unfold processStandard at h
  have hres := processStandardFilled_idealSize h
  have hceil0 : 0 ≤ ⌈(p.responseDelay : ℚ) / p.pollRate⌉ :=
    Int.ceil_nonneg (div_nonneg (Nat.cast_nonneg _) hpr.le)
  refine ⟨?_, ?_, ?_⟩
  · intro h0 hfit
    rw [hres]
    show (if m.idealStackSize = 0 then
        max MIN_TEMP_HIST_STACK_SIZE (calcIdealStackSize p)
      else m.idealStackSize) = _
    rw [if_pos h0]
    unfold calcIdealStackSize
    rw [rustCeilAsU8_toNat (by omega)]
    show max 2 _ = _
    rw [Nat.mod_eq_of_lt (by omega)]
  · intro h0 hsat
    rw [hres]
    show (if m.idealStackSize = 0 then
        max MIN_TEMP_HIST_STACK_SIZE (calcIdealStackSize p)
      else m.idealStackSize) = _
    rw [if_pos h0]
    unfold calcIdealStackSize
    rw [rustCeilAsU8_saturate hsat]
    rfl
  · intro h0
    rw [hres]
    show (if m.idealStackSize = 0 then
        max MIN_TEMP_HIST_STACK_SIZE (calcIdealStackSize p)
      else m.idealStackSize) = _
    rw [if_neg h0]

/-- Witness for the amended C6: response delay 4 s, poll rate 1 s, a fresh
metadata state and a single-status device history; the fixed ideal stack
size is `max(2, 5) = 5`. -/
theorem claimC6_ideal_stack_size_amended_witness :
    ((channelSettingMetadataNew.idealStackSize = 0 →
      ⌈((4 : Nat) : ℚ) / (1 : ℚ)⌉ + 1 ≤ 255 →
      (({ tempHistStack := [(30 : ℚ)], idealStackSize := 5,
          lastAppliedTemp := 30 } : ChannelSettingMetadata),
        (some (30 : ℚ))).1.idealStackSize =
        max 2 ((⌈((4 : Nat) : ℚ) / (1 : ℚ)⌉).toNat + 1))
    ∧ (channelSettingMetadataNew.idealStackSize = 0 →
      255 ≤ ⌈((4 : Nat) : ℚ) / (1 : ℚ)⌉ →
      (({ tempHistStack := [(30 : ℚ)], idealStackSize := 5,
          lastAppliedTemp := 30 } : ChannelSettingMetadata),
        (some (30 : ℚ))).1.idealStackSize = 2)
    ∧ (channelSettingMetadataNew.idealStackSize ≠ 0 →
      (({ tempHistStack := [(30 : ℚ)], idealStackSize := 5,
          lastAppliedTemp := 30 } : ChannelSettingMetadata),
        (some (30 : ℚ))).1.idealStackSize =
        channelSettingMetadataNew.idealStackSize)) :=
  claimC6_ideal_stack_size_amended
    { tempName := "t", speedProfile := [((30 : ℚ), 20), ((60 : ℚ), 80)],
      responseDelay := 4, deviance := 1, onlyDownward := false, pollRate := 1,
      dutyMinimum := 2, dutyMaximum := 20 }
    channelSettingMetadataNew
    (some [{ temps := [{ name := "t", temp := 30 }] }]) true
    ({ tempHistStack := [(30 : ℚ)], idealStackSize := 5, lastAppliedTemp := 30 },
      some (30 : ℚ))
    (by norm_num)
    (by decide)

theorem foldl_min_le (l : List TempData) (a : ℚ) :
    l.foldl (fun x d => min x d.temp) a ≤ a := by
  induction l generalizing a with
  | nil => simp
  | cons h t ih =>
    simp only [List.foldl_cons]
    exact le_trans (ih _) (min_le_left _ _)

theorem le_foldl_max (l : List TempData) (b : ℚ) :
    b ≤ l.foldl (fun x d => max x d.temp) b := by
  induction l generalizing b with
  | nil => simp
  | cons h t ih =>
    simp only [List.foldl_cons]
    exact le_trans (le_max_left _ _) (ih _)

theorem deltaFold_eq_minMax (l : List TempData) (a b : ℚ) :
    l.foldl
      (fun (acc : ℚ × ℚ) data =>
        (if data.temp < acc.1 then data.temp else acc.1,
         if data.temp > acc.2 then data.temp else acc.2)) (a, b) =
    (l.foldl (fun x d => min x d.temp) a, l.foldl (fun x d => max x d.temp) b) := by
  induction l generalizing a b with
  | nil => rfl
  | cons h t ih =>
    simp only [List.foldl_cons]
    rw [ih]
    have h1 : (if h.temp < a then h.temp else a) = min a h.temp := by
      rcases lt_or_le h.temp a with h' | h'
      · rw [if_pos h', min_eq_right h'.le]
      · rw [if_neg (not_lt.mpr h'), min_eq_left h']
    have h2 : (if h.temp > b then h.temp else b) = max b h.temp := by
      rcases lt_or_le b h.temp with h' | h'
      · rw [if_pos h', max_eq_right h'.le]
      · rw [if_neg (not_lt.mpr h'), max_eq_left h']
    rw [h1, h2]

/-- **C7 counterexample.** The Mix Delta fold starts its running minimum at
105 and its running maximum at 0, so a single reading of 110 °C yields
`|110 − 105| = 5`, not the 0 the claim requires for every single-element
list. -/
theorem claimC7_counterexample :
    processMixDelta [{ temp := 110, weight := 1 }] = 5 ∧ (5 : ℚ) ≠ 0 := by
  constructor
  · decide
  · norm_num

/-- **C7 (amended).** The Mix Delta function returns `max − min` of the
temperatures for every non-empty list whose temperatures all lie inside the
accumulator seeds' range `[0, 105]` (the counterexample shows the seeds leak
outside it); the empty list gives 0, and a single-element list within range
gives 0. -/
theorem claimC7_mix_delta_amended (l : List TempData) (hne : l ≠ [])
    (hr : ∀ x ∈ l, 0 ≤ x.temp ∧ x.temp ≤ 105) :
    processMixDelta l = tempsSup l - tempsInf l
    ∧ (∀ x, l = [x] → processMixDelta l = 0)
    ∧ processMixDelta ([] : List TempData) = 0 := by
  have main : processMixDelta l = tempsSup l - tempsInf l := by
    unfold processMixDelta
    rw [if_neg hne]
    cases l with
    | nil => exact absurd rfl hne
    | cons h t =>
      rw [deltaFold_eq_minMax]
      obtain ⟨h0, h105⟩ := hr h (List.mem_cons_self h t)
      simp only [List.foldl_cons]
      rw [min_eq_right h105, max_eq_right h0]
      show |List.foldl (fun x d => max x d.temp) h.temp t -
        List.foldl (fun x d => min x d.temp) h.temp t| = _
      rw [abs_of_nonneg (sub_nonneg.mpr
        (le_trans (foldl_min_le t h.temp) (le_foldl_max t h.temp)))]
      rfl
  refine ⟨main, ?_, rfl⟩
  intro x hx
  subst hx
  rw [main]
  show x.temp - x.temp = 0
  ring

/-- Witness for the amended C7 at the in-range list
`[(10, 1), (5, 1), (8, 1)]` (the repository's own delta test vector). -/
theorem claimC7_mix_delta_amended_witness :
    processMixDelta [{ temp := 10, weight := 1 }, { temp := 5, weight := 1 },
        { temp := 8, weight := 1 }] =
      tempsSup [{ temp := 10, weight := 1 }, { temp := 5, weight := 1 },
        { temp := 8, weight := 1 }] -
      tempsInf [{ temp := 10, weight := 1 }, { temp := 5, weight := 1 },
        { temp := 8, weight := 1 }]
    ∧ (∀ x, ([{ temp := (10 : ℚ), weight := (1 : ℚ) },
        { temp := 5, weight := 1 }, { temp := 8, weight := 1 }] : List TempData) = [x] →
      processMixDelta [{ temp := 10, weight := 1 }, { temp := 5, weight := 1 },
        { temp := 8, weight := 1 }] = 0)
    ∧ processMixDelta ([] : List TempData) = 0 :=
  claimC7_mix_delta_amended
    [{ temp := 10, weight := 1 }, { temp := 5, weight := 1 },
      { temp := 8, weight := 1 }]
    (by decide)
    (by intro x hx; fin_cases hx <;> norm_num)

/-- **C8.** The file-sensor pipeline returns `Ok(t / 1000)` exactly when the
file exists, its content is at most 15 bytes, the trimmed content parses as
an `i32` value `t`, and `t ∈ [0, 120000]`; the checks run in that order and
the first failing check produces the error.  In particular content
`"120000"` yields 120 °C and `"120001"` is rejected as unreasonable. -/
theorem claimC8_file_temp_pipeline :
    getCustomSensorFileTemp none = Except.error FileTempError.fileNotFound
    ∧ (∀ c : String, c.utf8ByteSize > MAX_CUSTOM_SENSOR_FILE_SIZE_BYTES →
        getCustomSensorFileTemp (some c) =
          Except.error FileTempError.fileSizeTooLarge)
    ∧ (∀ c : String, ¬(c.utf8ByteSize > MAX_CUSTOM_SENSOR_FILE_SIZE_BYTES) →
        parseI32 (trimChars c) = none →
        getCustomSensorFileTemp (some c) =
          Except.error FileTempError.invalidInteger)
    ∧ (∀ (c : String) (t : Int),
        ¬(c.utf8ByteSize > MAX_CUSTOM_SENSOR_FILE_SIZE_BYTES) →
        parseI32 (trimChars c) = some t → ¬(0 ≤ t ∧ t ≤ 120000) →
        getCustomSensorFileTemp (some c) =
          Except.error FileTempError.unreasonableTemp)
    ∧ (∀ (c : String) (t : Int),
        ¬(c.utf8ByteSize > MAX_CUSTOM_SENSOR_FILE_SIZE_BYTES) →
        parseI32 (trimChars c) = some t → 0 ≤ t → t ≤ 120000 →
        getCustomSensorFileTemp (some c) = Except.ok ((t : ℚ) / 1000))
    ∧ getCustomSensorFileTemp (some "120000") = Except.ok 120
    ∧ getCustomSensorFileTemp (some "120001") =
        Except.error FileTempError.unreasonableTemp := by
  have hsize : ∀ c : String,
      ¬(c.utf8ByteSize > MAX_CUSTOM_SENSOR_FILE_SIZE_BYTES) →
      verifyFileSize c = Except.ok c := by
    intro c hc
    unfold verifyFileSize
    rw [if_neg hc]
  refine ⟨rfl, ?_, ?_, ?_, ?_, ?_, ?_⟩
  · intro c hc
    show (verifyFileSize c).bind _ = _
    unfold verifyFileSize
    rw [if_pos hc]
    rfl
  · intro c hc hp
    show (verifyFileSize c).bind _ = _
    rw [hsize c hc]
    show (verifyI32 c).bind _ = _
    unfold verifyI32
    rw [hp]
    rfl
  · intro c t hc hp hrange
    show (verifyFileSize c).bind _ = _
    rw [hsize c hc]
    show (verifyI32 c).bind _ = _
    unfold verifyI32
    rw [hp]
    show verifyTempValue t = _
    unfold verifyTempValue
    rw [if_neg hrange]
  · intro c t hc hp h0 h1
    show (verifyFileSize c).bind _ = _
    rw [hsize c hc]
    show (verifyI32 c).bind _ = _
    unfold verifyI32
    rw [hp]
    show verifyTempValue t = _
    unfold verifyTempValue
    rw [if_pos ⟨h0, h1⟩]
  · decide
  · decide

/-- Witness for C8 at concrete contents: an oversized string, a
non-numeric string, an out-of-range value and the accepted value 30000
(30 °C). -/
theorem claimC8_file_temp_pipeline_witness :
    getCustomSensorFileTemp (some "1000000000000000") =
      Except.error FileTempError.fileSizeTooLarge
    ∧ getCustomSensorFileTemp (some "asdf") =
      Except.error FileTempError.invalidInteger
    ∧ getCustomSensorFileTemp (some "-1000") =
      Except.error FileTempError.unreasonableTemp
    ∧ getCustomSensorFileTemp (some " 30000\n") = Except.ok ((30000 : ℚ) / 1000) :=
  ⟨claimC8_file_temp_pipeline.2.1 "1000000000000000" (by decide),
   claimC8_file_temp_pipeline.2.2.1 "asdf" (by decide) (by decide),
   claimC8_file_temp_pipeline.2.2.2.1 "-1000" (-1000) (by decide) (by decide)
     (by decide),
   claimC8_file_temp_pipeline.2.2.2.2.1 " 30000\n" 30000 (by decide) (by decide)
     (by decide) (by decide)⟩

theorem filter_append_fresh {temps : List TempStatus} {x : TempStatus}
    {sensorId : String} (hf : ∀ ts ∈ temps, ts.name ≠ sensorId)
    (hx : x.name = sensorId) :
    (temps ++ [x]).filter (fun ts => ts.name != sensorId) = temps := by
  rw [List.filter_append]
  have h1 : temps.filter (fun ts => ts.name != sensorId) = temps :=
    List.filter_eq_self.mpr (fun ts hts => by simpa using hf ts hts)
  have h2 : ([x].filter (fun ts => ts.name != sensorId)) = [] := by
    simp [List.filter, hx]
  rw [h1, h2, List.append_nil]

theorem mixIndexed_name {all : AllDevices} {sensor : CustomSensor}
    {index : Nat} {ts : TempStatus}
    (h : processCustomSensorDataMixIndexed all sensor index = Except.ok ts) :
    ts.name = sensor.id := by
  unfold processCustomSensorDataMixIndexed at h
  cases hc : collectTempDataIndexed all index sensor.sources with
  | error e => rw [hc] at h; simp [Except.map] at h
  | ok tempData =>
    rw [hc] at h
    simp only [Except.map, Option.some.injEq, Except.ok.injEq] at h
    rw [← h]

theorem fillStatusHistoryMix_roundtrip {all : AllDevices}
    {sensor : CustomSensor} :
    ∀ (index : Nat) (hist hist' : List Status),
    fillStatusHistoryMix all sensor index hist = Except.ok hist' →
    (∀ st ∈ hist, ∀ ts ∈ st.temps, ts.name ≠ sensor.id) →
    removeStatusHistoryForSensor sensor.id hist' = hist := by
  intro index hist
  induction hist generalizing index with
  | nil =>
    intro hist' hfill _
    unfold fillStatusHistoryMix at hfill
    simp only [Except.ok.injEq] at hfill
    subst hfill
    rfl
  | cons st rest ih =>
    intro hist' hfill hfresh
    unfold fillStatusHistoryMix at hfill
    cases hm : processCustomSensorDataMixIndexed all sensor index with
    | error e => rw [hm] at hfill; simp [Except.bind] at hfill
    | ok ts =>
      rw [hm] at hfill
      simp only [Except.bind] at hfill
      cases hr : fillStatusHistoryMix all sensor (index + 1) rest with
      | error e => rw [hr] at hfill; simp [Except.map] at hfill
      | ok filled =>
        rw [hr] at hfill
        simp only [Except.map, Except.ok.injEq] at hfill
        subst hfill
        unfold removeStatusHistoryForSensor
        simp only [List.map_cons]
        have hrec := ih (index + 1) filled hr
          (fun s hs t ht => hfresh s (List.mem_cons_of_mem st hs) t ht)
        unfold removeStatusHistoryForSensor at hrec
        rw [hrec]
        have hfilter := filter_append_fresh
          (fun t ht => hfresh st (List.mem_cons_self st rest) t ht)
          (mixIndexed_name hm)
        rw [hfilter]

theorem fillStatusHistoryFileGo_roundtrip {sensorId : String}
    {currentTemp : ℚ} {lastIndex : Nat} :
    ∀ (index : Nat) (hist : List Status),
    (∀ st ∈ hist, ∀ ts ∈ st.temps, ts.name ≠ sensorId) →
    removeStatusHistoryForSensor sensorId
      (fillStatusHistoryFileGo sensorId currentTemp lastIndex index hist) = hist := by
  intro index hist
  induction hist generalizing index with
  | nil => intro _; rfl
  | cons st rest ih =>
    intro hfresh
    unfold fillStatusHistoryFileGo removeStatusHistoryForSensor
    simp only [List.map_cons]
    have hrec := ih (index + 1)
      (fun s hs t ht => hfresh s (List.mem_cons_of_mem st hs) t ht)
    unfold removeStatusHistoryForSensor at hrec
    rw [hrec]
    have hfreshSt := fun t ht => hfresh st (List.mem_cons_self st rest) t ht
    by_cases hidx : index = lastIndex
    · rw [if_pos hidx, filter_append_fresh hfreshSt rfl]
    · rw [if_neg hidx, filter_append_fresh hfreshSt rfl]

/-- **C9.** Adding a custom sensor whose id is fresh for the device's status
history (the retro-fill pushes one reading named after the sensor onto each
historical status) and then deleting it (which drops every reading with that
name) restores the status history exactly, entry for entry. -/
theorem claimC9_add_delete_roundtrip (all : AllDevices)
    (content : Option String) (sensor : CustomSensor) (hist hist' : List Status)
    (hfill : fillStatusHistoryForNewSensor all content sensor hist =
      Except.ok hist')
    (hfresh : ∀ st ∈ hist, ∀ ts ∈ st.temps, ts.name ≠ sensor.id) :
    removeStatusHistoryForSensor sensor.id hist' = hist := by
  unfold fillStatusHistoryForNewSensor at hfill
  cases hty : sensor.csType with
  | mix =>
    rw [hty] at hfill
    exact fillStatusHistoryMix_roundtrip 0 hist hist' hfill hfresh
  | file =>
    rw [hty] at hfill
    cases hp : sensor.filePath with
    | none => rw [hp] at hfill; simp at hfill
    | some path =>
      rw [hp] at hfill
      cases hv : getCustomSensorFileTemp content with
      | error e => rw [hv] at hfill; simp [Except.bind] at hfill
      | ok t =>
        rw [hv] at hfill
        simp only [Except.bind, Except.ok.injEq] at hfill
        subst hfill
        exact fillStatusHistoryFileGo_roundtrip 0 hist hfresh

/-- Witness for C9: a Mix (min) sensor `s1` over one device, added onto a
one-snapshot history that does not mention `s1`. -/
theorem claimC9_add_delete_roundtrip_witness :
    removeStatusHistoryForSensor "s1"
      [{ temps := [{ name := "other", temp := 5 }, { name := "s1", temp := 20 }] }] =
      [{ temps := [{ name := "other", temp := 5 }] }] :=
  claimC9_add_delete_roundtrip
    [("dev", [{ temps := [{ name := "t", temp := 20 }] }])] none
    { id := "s1", csType := CustomSensorType.mix,
      mixFunction := CustomSensorMixFunctionType.minMix,
      sources := [{ tempSource := { deviceUID := "dev", tempName := "t" },
                    weight := 1 }],
      filePath := none }
    [{ temps := [{ name := "other", temp := 5 }] }]
    [{ temps := [{ name := "other", temp := 5 }, { name := "s1", temp := 20 }] }]
    (by decide)
    (by decide)

/-- **C3 counterexample.** With `only_downward = true` the Standard
pre-processor's fast path emits the newest sample even though the oldest
sample of the examined stack lies within deviance of `last_applied_temp` and
the safety latch is off: metadata `{stack [30], ideal 3, last 30}`, deviance
1, newest reading 30.5 — the examined stack is `[30, 30.5]`, its oldest 30
is within `30 ± 1`, yet the processor emits 30.5 rather than nothing. -/
theorem claimC3_counterexample :
    processStandard
      { tempName := "t", speedProfile := [((30 : ℚ), 20), ((60 : ℚ), 80)],
        responseDelay := 2, deviance := 1, onlyDownward := true, pollRate := 1,
        dutyMinimum := 2, dutyMaximum := 20 }
      { tempHistStack := [(30 : ℚ)], idealStackSize := 3, lastAppliedTemp := 30 }
      (some [{ temps := [{ name := "t", temp := 30.5 }] }]) false =
      some ({ tempHistStack := [(30.5 : ℚ)], idealStackSize := 3,
              lastAppliedTemp := 30.5 }, some (30.5 : ℚ))
    ∧ tempWithinTolerance 30 30 1 = true := by
  constructor
  · decide
  · decide

/-- Equation lemma for `stdMainLogic` on a stack whose head and last are
known. -/
theorem stdMainLogic_eq {p : StdProfile} {m : ChannelSettingMetadata}
    {latch : Bool} {oldestTemp newestTemp : ℚ}
    (hh : m.tempHistStack.head? = some oldestTemp)
    (hl : m.tempHistStack.getLast? = some newestTemp) :
    stdMainLogic p m latch =
      if p.onlyDownward = true ∧ newestTemp > m.lastAppliedTemp then
        some ({ m with tempHistStack := [newestTemp], lastAppliedTemp := newestTemp },
          some newestTemp)
      else if tempWithinTolerance oldestTemp m.lastAppliedTemp p.deviance = true ∧
          latch = false then
        some (stdNormalizeStack p m oldestTemp newestTemp, none)
      else
        some ({ stdNormalizeStack p m oldestTemp newestTemp with lastAppliedTemp := oldestTemp },
          some oldestTemp) := by
  unfold stdMainLogic
  rw [hh, hl]

/-- **C3 (amended).** For a Standard function profile that is not on the
`only_downward` fast path (the function has `only_downward = false`, or the
newest sample does not exceed `last_applied_temp`) and is past cold start
(`last_applied_temp ≠ 0`): whenever the oldest sample of the
filled-and-trimmed stack lies within deviance of `last_applied_temp` and the
safety latch is not triggered, the pre-processor emits no temperature. -/
theorem claimC3_std_suppression_amended (p : StdProfile)
    (m m2 : ChannelSettingMetadata) (device : Option (List Status)) (oldest : ℚ)
    (hfill : stdFillAndTrim p
      { m with idealStackSize :=
          if m.idealStackSize = 0 then
            max MIN_TEMP_HIST_STACK_SIZE (calcIdealStackSize p)
          else m.idealStackSize } device = some m2)
    (hwarm : m.lastAppliedTemp ≠ 0)
    (hhead : m2.tempHistStack.head? = some oldest)
    (hwithin : tempWithinTolerance oldest m.lastAppliedTemp p.deviance = true)
    (hdown : p.onlyDownward = false ∨
      (∀ newest, m2.tempHistStack.getLast? = some newest →
        ¬(newest > m.lastAppliedTemp))) :
    ∃ m', processStandard p m device false = some (m', none) := by
  have hfields := stdFillAndTrim_fields hfill
  have hlast : m2.lastAppliedTemp = m.lastAppliedTemp := hfields.2
  have hne : m2.tempHistStack ≠ [] := by
    intro hnil
    rw [hnil] at hhead
    simp at hhead
  obtain ⟨newest, hnewest⟩ : ∃ newest, m2.tempHistStack.getLast? = some newest := by
    cases hL : m2.tempHistStack.getLast? with
    | none => exact absurd (List.getLast?_eq_none_iff.mp hL) hne
    | some w => exact ⟨w, rfl⟩
  refine ⟨stdNormalizeStack p m2 oldest newest, ?_⟩
  show processStandardFilled p _ device false = _
  unfold processStandardFilled
  rw [hfill]
  simp only [Option.some_bind]
  rw [if_neg (by
    intro hcold
    exact hwarm (hlast ▸ hcold.1))]
  rw [stdMainLogic_eq hhead hnewest]
  have hnotdown : ¬(p.onlyDownward = true ∧ newest > m2.lastAppliedTemp) := by
    rcases hdown with hfalse | hle
    · intro hcon
      rw [hfalse] at hcon
      exact Bool.false_ne_true hcon.1
    · intro hcon
      exact hle newest hnewest (hlast ▸ hcon.2)
  rw [if_neg hnotdown]
  rw [if_pos ⟨by rw [hlast]; exact hwithin, rfl⟩]

/-- Witness for the amended C3: deviance 1, `only_downward = false`, warm
metadata `{stack [30], ideal 3, last 30}` and a new reading 30.2 — the tick
emits nothing. -/
theorem claimC3_std_suppression_amended_witness :
    ∃ m', processStandard
      { tempName := "t", speedProfile := [((30 : ℚ), 20), ((60 : ℚ), 80)],
        responseDelay := 2, deviance := 1, onlyDownward := false, pollRate := 1,
        dutyMinimum := 2, dutyMaximum := 20 }
      { tempHistStack := [(30 : ℚ)], idealStackSize := 3, lastAppliedTemp := 30 }
      (some [{ temps := [{ name := "t", temp := 30.2 }] }]) false =
      some (m', none) :=
  claimC3_std_suppression_amended
    { tempName := "t", speedProfile := [((30 : ℚ), 20), ((60 : ℚ), 80)],
      responseDelay := 2, deviance := 1, onlyDownward := false, pollRate := 1,
      dutyMinimum := 2, dutyMaximum := 20 }
    { tempHistStack := [(30 : ℚ)], idealStackSize := 3, lastAppliedTemp := 30 }
    { tempHistStack := [(30 : ℚ), (30.2 : ℚ)], idealStackSize := 3,
      lastAppliedTemp := 30 }
    (some [{ temps := [{ name := "t", temp := 30.2 }] }]) 30
    (by decide) (by decide) (by decide) (by decide) (Or.inl rfl)

theorem rustAsU8_le_255 (q : ℚ) : rustAsU8 q ≤ 255 := by
  unfold rustAsU8
  split
  · omega
  · exact min_le_left _ _

theorem initialMaxNoDutySetCount_le_255 (responseDelay : Option Nat)
    (pollRate : ℚ) : initialMaxNoDutySetCount responseDelay pollRate ≤ 255 := by
  unfold initialMaxNoDutySetCount
  cases responseDelay with
  | none => exact rustAsU8_le_255 _
  | some d => exact rustAsU8_le_255 _

theorem latchBegin_new_triggered (responseDelay : Option Nat) (pollRate : ℚ) :
    (latchBegin responseDelay pollRate safetyLatchMetadataNew).2 = true := by
  unfold latchBegin safetyLatchMetadataNew
  simp only [if_pos rfl]
  exact decide_eq_true (initialMaxNoDutySetCount_le_255 responseDelay pollRate)

theorem fillTempStack_ne_nil {tempName : String} {m m2 : ChannelSettingMetadata}
    {device : Option (List Status)}
    (h : fillTempStack tempName m device = some m2) : m2.tempHistStack ≠ [] := by
  unfold fillTempStack at h
  split at h
  · split at h
    · simp only [Option.some.injEq] at h
      subst h
      simp
    · simp only [Option.some.injEq] at h
      subst h
      simp
  · split at h
    · split at h
      · simp only [Option.some.injEq] at h
        subst h
        simp
      · rename_i hemp
        simp only [Option.some.injEq] at h
        subst h
        exact hemp
    · rw [Option.map_eq_some'] at h
      obtain ⟨t, _, h⟩ := h
      subst h
      simp

theorem stdFillAndTrim_ne_nil {p : StdProfile} {m m2 : ChannelSettingMetadata}
    {device : Option (List Status)}
    (h : stdFillAndTrim p m device = some m2) (hideal : 1 ≤ m.idealStackSize) :
    m2.tempHistStack ≠ [] := by
  unfold stdFillAndTrim at h
  cases hf : fillTempStack p.tempName m device with
  | none => rw [hf] at h; simp at h
  | some mf =>
    rw [hf] at h
    simp only [Option.map_some', Option.some.injEq] at h
    subst h
    have hne := fillTempStack_ne_nil hf
    have hid := (fillTempStack_fields hf).1
    split
    · rename_i hover
      intro hnil
      have hnil2 : mf.tempHistStack.tail = [] := hnil
      have hlen : mf.tempHistStack.tail.length = mf.tempHistStack.length - 1 :=
        List.length_tail _
      rw [hnil2] at hlen
      simp only [List.length_nil] at hlen
      omega
    · exact hne

theorem fillTempStack_cold_some (tempName : String)
    (m : ChannelSettingMetadata) (device : Option (List Status))
    (hcold : m.lastAppliedTemp = 0) :
    ∃ m2, fillTempStack tempName m device = some m2 := by
  cases device with
  | none =>
    simp only [fillTempStack]
    rw [if_pos hcold]
    exact ⟨_, rfl⟩
  | some hist =>
    simp only [fillTempStack]
    rw [if_pos hcold]
    by_cases hemp : latestTempsOf hist m.idealStackSize tempName = []
    · rw [if_pos hemp]; exact ⟨_, rfl⟩
    · rw [if_neg hemp]; exact ⟨_, rfl⟩

theorem stdMainLogic_latched_emits (p : StdProfile)
    (m : ChannelSettingMetadata) (hne : m.tempHistStack ≠ []) :
    ∃ m' t, stdMainLogic p m true = some (m', some t) := by
  obtain ⟨oldestTemp, hh⟩ : ∃ o, m.tempHistStack.head? = some o := by
    cases hh : m.tempHistStack.head? with
    | none => exact absurd (List.head?_eq_none_iff.mp hh) hne
    | some o => exact ⟨o, rfl⟩
  obtain ⟨newestTemp, hl⟩ : ∃ n, m.tempHistStack.getLast? = some n := by
    cases hl : m.tempHistStack.getLast? with
    | none => exact absurd (List.getLast?_eq_none_iff.mp hl) hne
    | some n => exact ⟨n, rfl⟩
  rw [stdMainLogic_eq hh hl]
  by_cases hdown : p.onlyDownward = true ∧ newestTemp > m.lastAppliedTemp
  · rw [if_pos hdown]
    exact ⟨_, _, rfl⟩
  · rw [if_neg hdown]
    rw [if_neg (by intro hcon; exact Bool.noConfusion hcon.2)]
    exact ⟨_, _, rfl⟩

theorem processStandard_first_run_emits (p : StdProfile)
    (device : Option (List Status)) :
    ∃ m' t, processStandard p channelSettingMetadataNew device true =
      some (m', some t) := by
  unfold processStandard processStandardFilled
  have hideal2 : (2 : Nat) ≤ max MIN_TEMP_HIST_STACK_SIZE (calcIdealStackSize p) :=
    le_max_left _ _
  obtain ⟨mf, hf⟩ := fillTempStack_cold_some p.tempName
    { channelSettingMetadataNew with
      idealStackSize :=
        if channelSettingMetadataNew.idealStackSize = 0 then
          max MIN_TEMP_HIST_STACK_SIZE (calcIdealStackSize p)
        else channelSettingMetadataNew.idealStackSize } device rfl
  have htrim : stdFillAndTrim p
      { channelSettingMetadataNew with
        idealStackSize :=
          if channelSettingMetadataNew.idealStackSize = 0 then
            max MIN_TEMP_HIST_STACK_SIZE (calcIdealStackSize p)
          else channelSettingMetadataNew.idealStackSize } device =
      some (if mf.tempHistStack.length > mf.idealStackSize then
        { mf with tempHistStack := mf.tempHistStack.tail } else mf) := by
    unfold stdFillAndTrim
    rw [hf]
    rfl
  rw [htrim]
  simp only [Option.some_bind]
  set m2 := if mf.tempHistStack.length > mf.idealStackSize then
    { mf with tempHistStack := mf.tempHistStack.tail } else mf with hm2
  have hne : m2.tempHistStack ≠ [] := by
    have h1 : (1 : Nat) ≤ (if channelSettingMetadataNew.idealStackSize = 0 then
        max MIN_TEMP_HIST_STACK_SIZE (calcIdealStackSize p)
      else channelSettingMetadataNew.idealStackSize) := by
      rw [if_pos (show channelSettingMetadataNew.idealStackSize = 0 from rfl)]
      exact le_trans (by decide) (le_max_left _ _)
    exact stdFillAndTrim_ne_nil htrim h1
  by_cases hcold : m2.lastAppliedTemp = 0 ∧
      m2.tempHistStack.length < m2.idealStackSize
  · rw [if_pos hcold]
    obtain ⟨front, hfront⟩ : ∃ o, m2.tempHistStack.head? = some o := by
      cases hh : m2.tempHistStack.head? with
      | none => exact absurd (List.head?_eq_none_iff.mp hh) hne
      | some o => exact ⟨o, rfl⟩
    rw [hfront]
    exact ⟨_, _, rfl⟩
  · rw [if_neg hcold]
    exact stdMainLogic_latched_emits p m2 hne

/-- **C4.** A channel whose profile binding has just been installed
(`init_state` run on every chain processor) produces a duty on its very
first tick: the safety-latch counter starts at `u8::MAX` so the first tick
is latched, the Standard pre-processor's cold-start and latched paths apply
a temperature immediately from the fresh metadata, and the duty-threshold
post-processor applies unconditionally on the empty FIFO. -/
theorem claimC4_first_tick_emits :
    (∀ (p : StdProfile) (device : Option (List Status)),
      ∃ s' d, stdChainTick p stdChainStateInit device = some (s', some d))
    ∧ safetyLatchMetadataNew.noDutySetCounter = 255
    ∧ (∀ (responseDelay : Option Nat) (pollRate : ℚ),
        (latchBegin responseDelay pollRate safetyLatchMetadataNew).2 = true)
    ∧ (∀ (p : StdProfile) (device : Option (List Status)),
        ∃ m' t, processStandard p channelSettingMetadataNew device true =
          some (m', some t))
    ∧ (∀ (d : Nat) (latch : Bool) (dutyMin dutyMax : Nat),
        dutyWithinThresholds [] d latch dutyMin dutyMax = some d) := by
  refine ⟨?_, rfl, latchBegin_new_triggered, processStandard_first_run_emits,
    fun _ _ _ _ => rfl⟩
  intro p device
  obtain ⟨m', t, hstd⟩ := processStandard_first_run_emits p device
  have htrig := latchBegin_new_triggered (some p.responseDelay) p.pollRate
  have hthr : ∀ (d : Nat) (latch : Bool) (a b : Nat),
      thresholdProcess [] d latch a b = ([d], some d) := fun _ _ _ _ => rfl
  simp only [stdChainTick, stdChainStateInit, htrig, hstd, Option.some_bind, hthr]
  exact ⟨_, _, rfl⟩

theorem thresholdProcess_snd_isSome (fifo : List Nat) (d : Nat) (latch : Bool)
    (dutyMin dutyMax : Nat) :
    (thresholdProcess fifo d latch dutyMin dutyMax).2.isSome =
      (dutyWithinThresholds fifo d latch dutyMin dutyMax).isSome := by
  unfold thresholdProcess
  cases dutyWithinThresholds fifo d latch dutyMin dutyMax <;> rfl

theorem identityChainTick_no_emit (p : IdentityProfile) (s : IdentityChainState)
    (device : Option (List Status))
    (h : (identityChainTick p s device).2 = none) :
    (identityChainTick p s device).1.latch =
      latchEnd (latchBegin p.responseDelay p.pollRate s.latch).1 false := by
  unfold identityChainTick at h ⊢
  cases ht : identityTemp device p.tempName with
  | none => simp only [ht]
  | some t =>
    simp only [ht] at h ⊢
    cases hr : (thresholdProcess s.fifo (interpolateProfile p.speedProfile t)
        (latchBegin p.responseDelay p.pollRate s.latch).2
        p.dutyMinimum p.dutyMaximum).2 with
    | none => simp only [hr, Option.isSome_none]
    | some d => rw [hr] at h; exact absurd h (by simp)

theorem identityChainTick_latched_emits (p : IdentityProfile)
    (s : IdentityChainState) (device : Option (List Status))
    (hmaxne : s.latch.maxNoDutySetCount ≠ 0)
    (hcount : s.latch.noDutySetCounter ≥ s.latch.maxNoDutySetCount)
    (htemp : identityTemp device p.tempName ≠ none) :
    (identityChainTick p s device).2.isSome = true := by
  obtain ⟨t, ht⟩ := Option.ne_none_iff_exists'.mp htemp
  have htrig : (latchBegin p.responseDelay p.pollRate s.latch).2 = true := by
    simp only [latchBegin]
    rw [if_neg hmaxne]
    exact decide_eq_true hcount
  unfold identityChainTick
  simp only [ht, htrig]
  rw [thresholdProcess_snd_isSome]
  exact dutyWithinThresholds_latched _ _ _ _

theorem latchBegin_max_stable (responseDelay : Option Nat) (pollRate : ℚ)
    (m : SafetyLatchMetadata) (hne : m.maxNoDutySetCount ≠ 0) :
    (latchBegin responseDelay pollRate m).1 =
      { noDutySetCounter := m.noDutySetCounter,
        maxNoDutySetCount := m.maxNoDutySetCount } := by
  simp only [latchBegin]
  rw [if_neg hne]

theorem identityChain_emits_invariant (p : IdentityProfile) (M : Nat)
    (hM1 : 1 ≤ M) (hM255 : M ≤ 255) :
    ∀ (inputs : List (Option (List Status))) (s : IdentityChainState),
      s.latch.maxNoDutySetCount = M →
      M + 1 ≤ inputs.length + min s.latch.noDutySetCounter M →
      (∀ inp ∈ inputs, identityTemp inp p.tempName ≠ none) →
      ∃ o ∈ runIdentityChain p s inputs, o.isSome = true := by
  intro inputs
  induction inputs with
  | nil =>
    intro s hmax hlen htemps
    exfalso
    have := min_le_right s.latch.noDutySetCounter M
    simp only [List.length_nil, Nat.zero_add] at hlen
    omega
  | cons input rest ih =>
    intro s hmax hlen htemps
    have htemp : identityTemp input p.tempName ≠ none :=
      htemps input (List.mem_cons_self input rest)
    by_cases hlatch : s.latch.noDutySetCounter ≥ M
    · refine ⟨(identityChainTick p s input).2, ?_, ?_⟩
      · show (identityChainTick p s input).2 ∈
          (identityChainTick p s input).2 :: runIdentityChain p
            (identityChainTick p s input).1 rest
        exact List.mem_cons_self _ _
      · exact identityChainTick_latched_emits p s input
          (by rw [hmax]; omega) (by rw [hmax]; exact hlatch) htemp
    · push_neg at hlatch
      cases hstep : (identityChainTick p s input).2 with
      | some d =>
        refine ⟨(identityChainTick p s input).2, List.mem_cons_self _ _, ?_⟩
        rw [hstep]
        rfl
      | none =>
        have hlatchEq := identityChainTick_no_emit p s input hstep
        have hbeg := latchBegin_max_stable p.responseDelay p.pollRate s.latch
          (by rw [hmax]; omega)
        have hmax2 : (identityChainTick p s input).1.latch.maxNoDutySetCount
            = M := by
          rw [hlatchEq, hbeg]
          simp only [latchEnd]
          rw [if_neg (by simp : ¬ false = true)]
          exact hmax
        have hcnt : (identityChainTick p s input).1.latch.noDutySetCounter
            = s.latch.noDutySetCounter + 1 := by
          rw [hlatchEq, hbeg]
          simp only [latchEnd]
          rw [if_neg (by simp : ¬ false = true)]
          show (s.latch.noDutySetCounter + 1) % 256 = _
          have : s.latch.noDutySetCounter + 1 < 256 := by omega
          exact Nat.mod_eq_of_lt this
        obtain ⟨o, ho, hsome⟩ := ih (identityChainTick p s input).1 hmax2
          (by
            rw [hcnt]
            have hmin : min s.latch.noDutySetCounter M =
                s.latch.noDutySetCounter := min_eq_left hlatch.le
            have hmin2 : min (s.latch.noDutySetCounter + 1) M =
                s.latch.noDutySetCounter + 1 := min_eq_left hlatch
            simp only [List.length_cons] at hlen
            omega)
          (fun inp hm => htemps inp (List.mem_cons_of_mem _ hm))
        exact ⟨o, List.mem_cons_of_mem _ ho, hsome⟩

/-- Counterexample to C1: with `response_delay` absent and a poll rate of 1 s,
`max_no_duty_set_count` resolves to 30, yet a perfectly stable input produces
a window of exactly 30 (= `max_no_duty_set_count`) consecutive dutyless
ticks — the duty at the head, thirty suppressed ticks, then the latched
re-assertion on the 32nd tick.  The spec's window bound of
`max_no_duty_set_count` consecutive ticks is therefore off by one. -/
theorem claimC1_counterexample :
    initialMaxNoDutySetCount none 1 = 30 ∧
    runIdentityChain ⟨"t", [(0, 50)], none, 1, 2, 20⟩
        ⟨safetyLatchMetadataNew, []⟩
        (List.replicate 32 (some [⟨[⟨"t", 30⟩]⟩])) =
      some 50 :: (List.replicate 30 none ++ [some 50]) := by
  constructor
  · rfl
  · rfl

/-- **C1** (amended). For every channel with an active profile binding whose
safety-latch `max_no_duty_set_count` is resolved to `M` (with
`1 ≤ M ≤ 255`), the processor chain emits at least one duty within any
window of `M + 1` consecutive ticks on which a temperature is produced: the
begin-of-chain safety latch triggers once `no_duty_set_counter` reaches `M`,
the duty-threshold post-processor never suppresses while the latch is set,
and the end-of-chain run resets the counter on an emission and increments it
on a suppressed tick.  (The original window bound of `M` consecutive ticks
is refuted by `claimC1_counterexample`.) -/
theorem claimC1_safety_window_amended (p : IdentityProfile)
    (s : IdentityChainState) (M : Nat)
    (inputs : List (Option (List Status)))
    (hmax : s.latch.maxNoDutySetCount = M)
    (hM1 : 1 ≤ M) (hM255 : M ≤ 255)
    (hlen : M + 1 ≤ inputs.length)
    (htemps : ∀ inp ∈ inputs, identityTemp inp p.tempName ≠ none) :
    ∃ o ∈ runIdentityChain p s inputs, o.isSome = true :=
  identityChain_emits_invariant p M hM1 hM255 inputs s hmax
    (le_trans hlen (Nat.le_add_right _ _)) htemps

theorem claimC1_safety_window_amended_witness :
    ∃ o ∈ runIdentityChain ⟨"t", [(0, 50)], none, 1, 2, 20⟩
        ⟨⟨0, 30⟩, [50]⟩ (List.replicate 31 (some [⟨[⟨"t", 30⟩]⟩])),
      o.isSome = true :=
  claimC1_safety_window_amended ⟨"t", [(0, 50)], none, 1, 2, 20⟩
    ⟨⟨0, 30⟩, [50]⟩ 30 (List.replicate 31 (some [⟨[⟨"t", 30⟩]⟩]))
    rfl (by decide) (by decide) (by decide) (by decide)
